import Mathlib

set_option autoImplicit false

/-!
hexdiff: a shallow embedding of `src/hexdiff.c`

The comparison loop of `main` and the two renderers `print_same` and
`print_diff` are embedded as pure functions.

* A byte is a `Nat`; a buffer `uint8_t buf[8]` is a `List Nat` read at the
  indices `0..7` (`List.getD`), exactly the indices the C code touches.
* The `unsigned long long` variables `cnt`, `eq_run` and the sums
  `skip + cnt` wrap modulo `2^64`.
* A stream is the list of bytes that `fread` can still deliver after the
  initial `fseeko`.
* Standard output is a list of tokens, one per conversion of the `printf`
  format strings; `renderToks` turns the tokens into the characters written.
* The four static strings `ansi_green`, `ansi_red`, `ansi_reset`, `empty_str`
  are compared by address in the C code, so they form an enumeration.
* The flag `sigint_recv` is set from outside; the loop sees it as a function
  of the number of bodies executed so far.
* `print_same` and `print_diff` call `printicize` on the buffers of `main`, so
  both return the buffers as they leave them.
-/

namespace Hexdiff

/-! ## Data model -/

/-- The four static strings of lines 31-34; the C code compares them by address. -/
inductive Esc where
  | ansi_green
  | ansi_red
  | ansi_reset
  | empty_str
  deriving DecidableEq

/-- The characters of each static string. -/
def Esc.str : Esc → String
  | .ansi_green => "\x1b[32m"
  | .ansi_red => "\x1b[31m"
  | .ansi_reset => "\x1b[0m"
  | .empty_str => ""

/-- One conversion (or literal run) of a `printf` format string. -/
inductive Tok where
  | esc (e : Esc)
  | addr (v : Nat)
  | hex (b : Nat)
  | chr (b : Nat)
  | lit (s : String)
  deriving DecidableEq

/-- Range of `unsigned long long`. -/
def U64 : Nat := 2 ^ 64

/-- One lowercase hexadecimal digit. -/
def hexDigit (d : Nat) : Char :=
  if d < 10 then Char.ofNat (48 + d) else Char.ofNat (87 + d)

/-- The conversion `%02hhx`: the argument is converted to `unsigned char`. -/
def hex2 (b : Nat) : String :=
  String.mk [hexDigit (b % 256 / 16), hexDigit (b % 16)]

/-- Hexadecimal digits of `v`, most significant first, using `fuel` rounds. -/
def hexDigits : Nat → Nat → List Char → List Char
  | 0, _, acc => acc
  | fuel + 1, v, acc =>
    if v < 16 then hexDigit v :: acc
    else hexDigits fuel (v / 16) (hexDigit (v % 16) :: acc)

/-- The conversion `0x%010llx`: at least ten digits, zero padded. -/
def hex10 (v : Nat) : String :=
  let ds := hexDigits 16 (v % U64) []
  String.mk ('0' :: 'x' :: (List.replicate (10 - ds.length) '0' ++ ds))

/-- Characters written for one token. -/
def Tok.render : Tok → String
  | .esc e => e.str
  | .addr v => hex10 v
  | .hex b => hex2 b
  | .chr b => String.mk [Char.ofNat (b % 256)]
  | .lit s => s

/-- Characters written for a token list. -/
def renderToks (ts : List Tok) : String :=
  ts.foldl (fun acc t => acc ++ t.render) ""

/-! ## `printicize` (lines 61-69) -/

/-- Replacement applied to one byte by `printicize`. -/
def printicizeByte (b : Nat) : Nat :=
  if b < 0x20 ∨ b > 0x7e then 0x2e else b

/-- The loop of `printicize` rewrites positions `0..7` in place. -/
def printicize (buf : List Nat) : List Nat :=
  (buf.take 8).map printicizeByte ++ buf.drop 8

/-! ## Renderers -/

/-- What a renderer leaves behind: the tokens written and both buffers, which
    `printicize` has overwritten in place. -/
structure Printed where
  out : List Tok
  buf1 : List Nat
  buf2 : List Nat
  deriving DecidableEq

/-- Eight `%02hhx` conversions of `buf[0]..buf[7]`. -/
def hexToks (buf : List Nat) : List Tok :=
  (List.range 8).map (fun i => Tok.hex (buf.getD i 0))

/-- Eight `%c` conversions of `buf[0]..buf[7]`. -/
def chrToks (buf : List Nat) : List Tok :=
  (List.range 8).map (fun i => Tok.chr (buf.getD i 0))

/-- Function `print_same` (lines 72-94). -/
def print_same (buf1 buf2 : List Nat) (skip1 skip2 cnt : Nat) : Printed :=
  let left := [Tok.esc .ansi_reset, Tok.addr ((skip1 + cnt) % U64), Tok.lit "  "]
    ++ hexToks buf1 ++ [Tok.lit " "]
  let buf1 := printicize buf1
  let leftAscii := chrToks buf1 ++ [Tok.lit "    "]
  let right := [Tok.addr ((skip2 + cnt) % U64), Tok.lit "  "]
    ++ hexToks buf2 ++ [Tok.lit " "]
  let buf2 := printicize buf2
  let rightAscii := chrToks buf2 ++ [Tok.lit "\n"]
  { out := left ++ leftAscii ++ right ++ rightAscii, buf1 := buf1, buf2 := buf2 }

/-- First loop of `print_diff` (lines 105-108): one colour per position. -/
def classify (buf1 buf2 : List Nat) : List Esc :=
  (List.range 8).map
    (fun i => if buf1.getD i 0 = buf2.getD i 0 then Esc.ansi_green else Esc.ansi_red)

/-- Second loop of `print_diff` (lines 122-128), from index 1 on, carrying
    `color_last`. -/
def elimLoop : Esc → List Esc → List Esc
  | _, [] => []
  | color_last, c :: cs =>
    if c = color_last then Esc.empty_str :: elimLoop color_last cs
    else c :: elimLoop c cs

/-- Lines 110-128 of `print_diff`: removal of redundant escape sequences. -/
def markers (color : List Esc) : List Esc :=
  let color_last := color.getD 0 .empty_str
  let c0 :=
    if color.getD 0 .empty_str = .ansi_red ∧ color.getD 7 .empty_str = .ansi_red
    then Esc.empty_str else color.getD 0 .empty_str
  c0 :: elimLoop color_last ((color.drop 1).take 7)

/-- Eight `%s%02hhx` conversions. -/
def hexToksC (color : List Esc) (buf : List Nat) : List Tok :=
  (List.range 8).flatMap
    (fun i => [Tok.esc (color.getD i .empty_str), Tok.hex (buf.getD i 0)])

/-- Eight `%s%c` conversions. -/
def chrToksC (color : List Esc) (buf : List Nat) : List Tok :=
  (List.range 8).flatMap
    (fun i => [Tok.esc (color.getD i .empty_str), Tok.chr (buf.getD i 0)])

/-- Lines 130-155 of `print_diff`: the four sections printed with the
    escape sequences held in `color`, then the reset sequence. -/
def printDiffLine (color : List Esc) (buf1 buf2 : List Nat) (skip1 skip2 cnt : Nat) :
    Printed :=
  let left := [Tok.esc .ansi_red, Tok.addr ((skip1 + cnt) % U64), Tok.lit "  "]
    ++ hexToksC color buf1 ++ [Tok.lit " "]
  let buf1 := printicize buf1
  let leftAscii := chrToksC color buf1 ++ [Tok.lit "    "]
  let right := [Tok.esc .ansi_red, Tok.addr ((skip2 + cnt) % U64), Tok.lit "  "]
    ++ hexToksC color buf2 ++ [Tok.lit " "]
  let buf2 := printicize buf2
  let rightAscii := chrToksC color buf2 ++ [Tok.lit "\n"]
  { out := left ++ leftAscii ++ right ++ rightAscii ++ [Tok.esc .ansi_reset],
    buf1 := buf1, buf2 := buf2 }

/-- Function `print_diff` (lines 97-156). -/
def print_diff (buf1 buf2 : List Nat) (skip1 skip2 cnt : Nat) : Printed :=
  printDiffLine (markers (classify buf1 buf2)) buf1 buf2 skip1 skip2 cnt

/-! ## The comparison loop of `main` (lines 231-268) -/

/-- Command-line parameters that reach the loop. -/
structure Config where
  show_all : Nat
  max_len : Nat
  skip1 : Nat
  skip2 : Nat
  deriving DecidableEq

/-- Local variables of `main` during the loop, the two streams and the tokens
    written so far; `iters` counts executed loop bodies. -/
structure State where
  file1 : List Nat
  file2 : List Nat
  input_end : Nat
  cnt : Nat
  eq_run : Nat
  buf1 : List Nat
  buf2 : List Nat
  out : List Tok
  iters : Nat
  deriving DecidableEq

/-- Call `memset(buf, 0, 8)`. -/
def memset0 : List Nat := List.replicate 8 0

/-- Call `fread(buf, 1, 8, file)`: the bytes obtained overwrite the front of
    `buf`; returns the buffer, the number of bytes obtained and the rest of
    the stream. -/
def fread8 (buf file : List Nat) : List Nat × Nat × List Nat :=
  let got := file.take 8
  (got ++ buf.drop got.length, got.length, file.drop 8)

/-- Call `memcmp(buf1, buf2, n)` scanning from index `i`: difference of the
    first pair of unequal bytes, `0` when there is none. -/
def memcmpFrom (buf1 buf2 : List Nat) (i : Nat) : Nat → Int
  | 0 => 0
  | n + 1 =>
    if buf1.getD i 0 = buf2.getD i 0 then memcmpFrom buf1 buf2 (i + 1) n
    else (buf1.getD i 0 : Int) - (buf2.getD i 0 : Int)

/-- Call `memcmp(buf1, buf2, 8)`. -/
def memcmp8 (buf1 buf2 : List Nat) : Int := memcmpFrom buf1 buf2 0 8

/-- Lines 243-253: clear both buffers, read both streams, raise `input_end`
    on a short read. -/
def readChunks (s : State) : State :=
  let r1 := fread8 memset0 s.file1
  let e1 := if r1.2.1 ≠ 8 then 1 else s.input_end
  let r2 := fread8 memset0 s.file2
  let e2 := if r2.2.1 ≠ 8 then 1 else e1
  { s with file1 := r1.2.2, file2 := r2.2.2, input_end := e2,
           buf1 := r1.1, buf2 := r2.1 }

/-- Lines 255-267: compare the two buffers, render or collapse, advance `cnt`. -/
def compareAndPrint (c : Config) (s : State) : State :=
  let s :=
    if memcmp8 s.buf1 s.buf2 = 0 then
      let s :=
        if s.eq_run = 0 ∨ c.show_all = 1 then
          let p := print_same s.buf1 s.buf2 c.skip1 c.skip2 s.cnt
          { s with out := s.out ++ p.out, buf1 := p.buf1, buf2 := p.buf2 }
        else if s.eq_run = 1 then
          { s with out := s.out ++ [Tok.lit "...\n"] }
        else s
      { s with eq_run := (s.eq_run + 1) % U64 }
    else
      let p := print_diff s.buf1 s.buf2 c.skip1 c.skip2 s.cnt
      { s with out := s.out ++ p.out, buf1 := p.buf1, buf2 := p.buf2, eq_run := 0 }
  { s with cnt := (s.cnt + 8) % U64, iters := s.iters + 1 }

/-- One execution of the loop body (lines 241-267). -/
def body (c : Config) (s : State) : State :=
  compareAndPrint c (readChunks s)

/-- The loop test of lines 239-240; `sigint_recv k` is the value of the flag
    seen by the test that follows `k` executed bodies. -/
def loopCond (c : Config) (sigint_recv : Nat → Nat) (s : State) : Bool :=
  (s.input_end == 0) && (decide (s.cnt < c.max_len) || (c.max_len == 0)) &&
    (sigint_recv s.iters == 0)

/-- The `while` loop of lines 239-268 with a bound on the number of bodies;
    `none` when the bound is used up while the test still holds. -/
def loop (c : Config) (sigint_recv : Nat → Nat) : Nat → State → Option State
  | 0, s => if loopCond c sigint_recv s then none else some s
  | fuel + 1, s =>
    if loopCond c sigint_recv s then loop c sigint_recv fuel (body c s) else some s

/-- Header line of lines 232-234. -/
def header : List Tok :=
  [Tok.esc .ansi_reset,
   Tok.lit "   offset      0 1 2 3 4 5 6 7 01234567       offset      0 1 2 3 4 5 6 7 01234567\n"]

/-- State at line 239 on first entry: both streams positioned, header written. -/
def initState (file1 file2 : List Nat) : State :=
  { file1 := file1, file2 := file2, input_end := 0, cnt := 0, eq_run := 0,
    buf1 := [], buf2 := [], out := header, iters := 0 }

/-- Lines 231-268 of `main`: every body consumes eight bytes of `file1` or
    ends the input, so `file1.length / 8 + 1` bodies always suffice. -/
def compareLoop (c : Config) (sigint_recv : Nat → Nat) (file1 file2 : List Nat) :
    Option State :=
  loop c sigint_recv (file1.length / 8 + 1) (initState file1 file2)

/-- The loop body with the two reads replaced by a given chunk pair: lines
    255-267 run on the buffers `p.1` and `p.2`. -/
def feed (c : Config) (s : State) (p : List Nat × List Nat) : State :=
  compareAndPrint c { s with buf1 := p.1, buf2 := p.2 }

/-- The driver fed with a sequence of chunk pairs. -/
def feedAll (c : Config) (s : State) (ps : List (List Nat × List Nat)) : State :=
  ps.foldl (feed c) s

/-- The value of `n` bodies executed in a row. -/
def bodyN (c : Config) : Nat → State → State
  | 0, s => s
  | n + 1, s => bodyN c n (body c s)

/-! ## Vocabulary of the properties and concrete inputs -/

/-- The tokens one pass through lines 255-265 appends for an equal pair. -/
def equalOut (c : Config) (eq_run cnt : Nat) (buf1 buf2 : List Nat) : List Tok :=
  if eq_run = 0 ∨ c.show_all = 1 then (print_same buf1 buf2 c.skip1 c.skip2 cnt).out
  else if eq_run = 1 then [Tok.lit "...\n"] else []

/-- Predicate for a chunk pair whose eight positions agree. -/
def FullyEqual (p : List Nat × List Nat) : Prop :=
  ∀ i, i < 8 → p.1.getD i 0 = p.2.getD i 0

/-- Predicate for a chunk pair with at least one differing position. -/
def Differs (p : List Nat × List Nat) : Prop :=
  ∃ i, i < 8 ∧ p.1.getD i 0 ≠ p.2.getD i 0

instance (p : List Nat × List Nat) : Decidable (FullyEqual p) := by
  unfold FullyEqual; infer_instance

instance (p : List Nat × List Nat) : Decidable (Differs p) := by
  unfold Differs; infer_instance

/-- The tokens the renderers write for a sequence of chunk pairs when each
    pair is rendered individually, the first at counter value `cnt`. -/
def renderEach (c : Config) : Nat → List (List Nat × List Nat) → List Tok
  | _, [] => []
  | cnt, p :: ps =>
    (if FullyEqual p then (print_same p.1 p.2 c.skip1 c.skip2 cnt).out
     else (print_diff p.1 p.2 c.skip1 c.skip2 cnt).out) ++
      renderEach c ((cnt + 8) % U64) ps

/-- The values of the `0x%010llx` conversions in a token list, in order. -/
def addrs (ts : List Tok) : List Nat :=
  ts.filterMap (fun t => match t with
    | Tok.addr v => some v
    | _ => none)

/-- The tokens one loop body appends, given the chunk pair it has read. -/
def stepOut (c : Config) (eq_run cnt : Nat) (buf1 buf2 : List Nat) : List Tok :=
  if FullyEqual (buf1, buf2) then equalOut c eq_run cnt buf1 buf2
  else (print_diff buf1 buf2 c.skip1 c.skip2 cnt).out

/-- The first eight bytes of a stream, padded with zero bytes to length 8. -/
def zeroFill (file : List Nat) : List Nat :=
  file.take 8 ++ List.replicate (8 - file.length) 0

/-- The colour of a position: match colour for equal bytes, difference colour
    otherwise. -/
def colourOf (eq : Bool) : Esc := if eq then Esc.ansi_green else Esc.ansi_red

/-- The colour in effect after an escape sequence: the empty string changes
    nothing, any other sequence sets its own colour. -/
def stepCol (cur m : Esc) : Esc := if m = Esc.empty_str then cur else m

/-- The colour in effect at each byte of a section printed with the markers
    `m` at the indices `is`, starting from the colour `cur`, together with
    the colour in effect after the section. -/
def trackIdx (m : List Esc) : Esc → List Nat → List Esc × Esc
  | cur, [] => ([], cur)
  | cur, i :: is =>
    (stepCol cur (m.getD i .empty_str) ::
        (trackIdx m (stepCol cur (m.getD i .empty_str)) is).1,
      (trackIdx m (stepCol cur (m.getD i .empty_str)) is).2)

/-- The colour in effect when each byte token (`%02hhx` or `%c`) of a token
    list is printed, starting from the colour `cur`. -/
def byteColours : Esc → List Tok → List Esc
  | _, [] => []
  | cur, Tok.esc e :: ts => byteColours (stepCol cur e) ts
  | cur, Tok.hex _ :: ts => cur :: byteColours cur ts
  | cur, Tok.chr _ :: ts => cur :: byteColours cur ts
  | cur, Tok.addr _ :: ts => byteColours cur ts
  | cur, Tok.lit _ :: ts => byteColours cur ts

/-- The signal flag that is never raised. -/
def noSigint : Nat → Nat := fun _ => 0

/-- A stream of seven bytes. -/
def file7 : List Nat := [1, 2, 3, 4, 5, 6, 7]

/-- A stream of sixteen bytes. -/
def file16 : List Nat := [1, 2, 3, 4, 5, 6, 7, 8, 9, 10, 11, 12, 13, 14, 15, 16]

/-- A configuration limiting the comparison to five bytes. -/
def cfgLimit5 : Config := { show_all := 0, max_len := 5, skip1 := 0, skip2 := 0 }

/-- A configuration limiting the comparison to eight bytes. -/
def cfgLimit8 : Config := { show_all := 0, max_len := 8, skip1 := 0, skip2 := 0 }

/-- A configuration with the largest limit `2^64 - 1`. -/
def cfgLimitMax : Config := { show_all := 0, max_len := U64 - 1, skip1 := 0, skip2 := 0 }

/-- The stream `file16` with the byte at index 9 changed. -/
def file16b : List Nat := [1, 2, 3, 4, 5, 6, 7, 8, 9, 0xaa, 11, 12, 13, 14, 15, 16]

/-- A configuration with "show all" off, no length limit and both skips 0. -/
def cfgDefault : Config := { show_all := 0, max_len := 0, skip1 := 0, skip2 := 0 }

/-- The chunk `41 42 43 44 45 46 47 48`. -/
def chunkA : List Nat := [0x41, 0x42, 0x43, 0x44, 0x45, 0x46, 0x47, 0x48]

/-- The chunk `chunkA` with position 1 changed. -/
def chunkB : List Nat := [0x41, 0x62, 0x43, 0x44, 0x45, 0x46, 0x47, 0x48]

/-- A configuration with "show all" on, no length limit and both skips 0. -/
def cfgShowAll : Config := { show_all := 1, max_len := 0, skip1 := 0, skip2 := 0 }

/-- The marker the elimination of lines 110-128 should leave at position `i`
    of the colour sequence `c`, in the words of the specification: at
    position 0 nothing when positions 0 and 7 both have the difference colour
    and the colour itself otherwise; at a later position the colour when it
    differs from the colour of the position before, nothing otherwise. -/
def markerSpec (c : List Esc) (i : Nat) : Esc :=
  if i = 0 then
    (if c.getD 0 .empty_str = .ansi_red ∧ c.getD 7 .empty_str = .ansi_red
     then Esc.empty_str else c.getD 0 .empty_str)
  else if c.getD i .empty_str = c.getD (i - 1) .empty_str then Esc.empty_str
  else c.getD i .empty_str

/-- The markers of a pair that differs only at position `k`: the difference
    colour at `k`, the match colour right after `k`, and the match colour at
    position 0 when `k` is not 0. -/
def singleDiffMarker (k i : Nat) : Esc :=
  if i = k then Esc.ansi_red
  else if i = k + 1 then Esc.ansi_green
  else if i = 0 then Esc.ansi_green
  else Esc.empty_str

/-- The escape sequences in a token list, in order. -/
def escs (ts : List Tok) : List Esc :=
  ts.filterMap (fun t => match t with
    | Tok.esc e => some e
    | _ => none)

/-- A chunk with bytes below, inside and above the printable range. -/
def chunkMixed : List Nat := [0x00, 0x1f, 0x20, 0x41, 0x7e, 0x7f, 0xff, 0x2e]

/-- The byte conversions (`%02hhx` and `%c`) in a token list, in order. -/
def byteToks (ts : List Tok) : List Tok :=
  ts.filter (fun t => match t with
    | Tok.hex _ => true
    | Tok.chr _ => true
    | _ => false)

/-! ## `show_help` and the option loop (lines 45-58 and 179-194) -/

/-- Exit status passed to `exit`. -/
inductive ExitStatus where
  | EXIT_SUCCESS
  | EXIT_FAILURE
  deriving DecidableEq

/-- What a call that ends the process has written to standard error and to
    standard output, and the status it exits with. -/
structure Exited where
  stderr : String
  stdout : String
  status : ExitStatus
  deriving DecidableEq

/-- Function `show_help` (lines 45-58): `fprintf(stderr, ...)` for the usage
    line, `printf` for the block printed when `verbose` is set, then
    `exit(EXIT_FAILURE)`. -/
def show_help (argv0 : String) (verbose : Nat) : Exited :=
  { stderr := "Usage: " ++ argv0 ++ " [-ah] [-n len] file1 file2 [skip1 [skip2]]\n",
    stdout :=
      if verbose ≠ 0 then
        " -a      print all lines\n" ++
        " -h      show help\n" ++
        " -n len  maximum number of bytes to compare\n" ++
        " skip1   starting offset for file1\n" ++
        " skip2   starting offset for file2\n"
      else "",
    status := .EXIT_FAILURE }

/-- One value returned by `getopt(argc, argv, "ahn:")`: the option `a`, the
    option `h`, the option `n` with the value `strtoull` gives its argument,
    or `?` for anything else. -/
inductive Opt where
  | a
  | h
  | n (len : Nat)
  | unknown
  deriving DecidableEq

/-- The option loop of lines 179-194 on the values `getopt` returns, carrying
    `show_all` and `max_len`: it ends the process through `show_help` or
    returns both variables. -/
def parseOpts (argv0 : String) : List Opt → Nat × Nat → Except Exited (Nat × Nat)
  | [], st => .ok st
  | Opt.a :: os, st => parseOpts argv0 os (1, st.2)
  | Opt.h :: _, _ => .error (show_help argv0 1)
  | Opt.n len :: os, st => parseOpts argv0 os (st.1, len)
  | Opt.unknown :: _, _ => .error (show_help argv0 0)

/-- Number of consecutive fully equal chunk pairs at the end of a sequence. -/
def trailingEqual (ps : List (List Nat × List Nat)) : Nat :=
  (ps.reverse.takeWhile (fun p => decide (FullyEqual p))).length

/-- The chunk pairs the first `n` loop bodies read from two streams: each body
    takes the next eight bytes of either stream, zero-filled. -/
def chunkPairs : Nat → List Nat → List Nat → List (List Nat × List Nat)
  | 0, _, _ => []
  | n + 1, file1, file2 =>
    (zeroFill file1, zeroFill file2) :: chunkPairs n (file1.drop 8) (file2.drop 8)

/-- A stream of eight bytes. -/
def file8 : List Nat := [1, 2, 3, 4, 5, 6, 7, 8]

/-- The chunk `chunkA` with the byte at index 6 changed. -/
def chunkA6 : List Nat := [0x41, 0x42, 0x43, 0x44, 0x45, 0x46, 0x67, 0x48]

/-! ## Basic facts about the comparison -/

theorem memcmpFrom_eq_zero (buf1 buf2 : List Nat) (n : Nat) :
    ∀ i, memcmpFrom buf1 buf2 i n = 0 ↔
      ∀ j, i ≤ j → j < i + n → buf1.getD j 0 = buf2.getD j 0 := by
  induction n with
  | zero =>
    intro i
    simp only [memcmpFrom, true_iff]
    intro j h1 h2
    omega
  | succ n ih =>
    intro i
    by_cases h : buf1.getD i 0 = buf2.getD i 0
    · simp only [memcmpFrom, if_pos h]
      rw [ih (i + 1)]
      constructor
      · intro hall j h1 h2
        by_cases hj : j = i
        · subst hj; exact h
        · exact hall j (by omega) (by omega)
      · intro hall j h1 h2
        exact hall j (by omega) (by omega)
    · simp only [memcmpFrom, if_neg h]
      constructor
      · intro h0
        exfalso
        apply h
        have : (buf1.getD i 0 : Int) = (buf2.getD i 0 : Int) := by omega
        exact_mod_cast this
      · intro hall
        exact absurd (hall i (le_refl i) (by omega)) h

theorem memcmp8_eq_zero (buf1 buf2 : List Nat) :
    memcmp8 buf1 buf2 = 0 ↔ ∀ i, i < 8 → buf1.getD i 0 = buf2.getD i 0 := by
  unfold memcmp8
  rw [memcmpFrom_eq_zero]
  constructor
  · intro h i hi
    exact h i (Nat.zero_le i) (by omega)
  · intro h j _ hj
    exact h j (by omega)

theorem classify_getD (buf1 buf2 : List Nat) (i : Nat) (hi : i < 8) :
    (classify buf1 buf2).getD i .empty_str =
      if buf1.getD i 0 = buf2.getD i 0 then Esc.ansi_green else Esc.ansi_red := by
  unfold classify
  rw [List.getD_eq_getElem _ _ (by simpa using hi)]
  simp

theorem print_diff_head (buf1 buf2 : List Nat) (skip1 skip2 cnt : Nat) :
    (print_diff buf1 buf2 skip1 skip2 cnt).out.head? = some (Tok.esc .ansi_red) := rfl

theorem print_same_head (buf1 buf2 : List Nat) (skip1 skip2 cnt : Nat) :
    (print_same buf1 buf2 skip1 skip2 cnt).out.head? = some (Tok.esc .ansi_reset) := rfl

theorem feed_equal (c : Config) (s : State) (p : List Nat × List Nat)
    (h : ∀ i, i < 8 → p.1.getD i 0 = p.2.getD i 0) :
    (feed c s p).out = s.out ++ equalOut c s.eq_run s.cnt p.1 p.2 ∧
    (feed c s p).eq_run = (s.eq_run + 1) % U64 ∧
    (feed c s p).cnt = (s.cnt + 8) % U64 ∧
    (feed c s p).iters = s.iters + 1 ∧
    (feed c s p).input_end = s.input_end ∧
    (feed c s p).file1 = s.file1 ∧ (feed c s p).file2 = s.file2 := by
  have hm : memcmp8 p.1 p.2 = 0 := (memcmp8_eq_zero _ _).2 h
  unfold feed compareAndPrint equalOut
  simp only [hm, if_true]
  by_cases h0 : s.eq_run = 0 ∨ c.show_all = 1
  · simp [h0]
  · have ha : ¬ s.eq_run = 0 := fun h => h0 (Or.inl h)
    have hb : ¬ c.show_all = 1 := fun h => h0 (Or.inr h)
    by_cases h1 : s.eq_run = 1
    · simp [hb, h1]
    · simp [ha, hb, h1]

theorem feed_unequal (c : Config) (s : State) (p : List Nat × List Nat)
    (h : ∃ i, i < 8 ∧ p.1.getD i 0 ≠ p.2.getD i 0) :
    (feed c s p).out = s.out ++ (print_diff p.1 p.2 c.skip1 c.skip2 s.cnt).out ∧
    (feed c s p).eq_run = 0 ∧
    (feed c s p).cnt = (s.cnt + 8) % U64 ∧
    (feed c s p).iters = s.iters + 1 ∧
    (feed c s p).input_end = s.input_end ∧
    (feed c s p).file1 = s.file1 ∧ (feed c s p).file2 = s.file2 := by
  have hm : ¬ memcmp8 p.1 p.2 = 0 := by
    rw [memcmp8_eq_zero]
    intro hall
    obtain ⟨i, hi, hne⟩ := h
    exact hne (hall i hi)
  unfold feed compareAndPrint
  simp [hm]

theorem equalOut_ne_print_diff (c : Config) (eq_run cnt cnt2 : Nat) (buf1 buf2 : List Nat) :
    equalOut c eq_run cnt buf1 buf2 ≠ (print_diff buf1 buf2 c.skip1 c.skip2 cnt2).out := by
  intro h
  have hd := print_diff_head buf1 buf2 c.skip1 c.skip2 cnt2
  rw [← h] at hd
  unfold equalOut at hd
  split at hd
  · rw [print_same_head] at hd
    exact absurd hd (by decide)
  · split at hd
    · exact absurd hd (by decide)
    · exact absurd hd (by decide)

theorem feedAll_cons (c : Config) (s : State) (p : List Nat × List Nat)
    (ps : List (List Nat × List Nat)) :
    feedAll c s (p :: ps) = feedAll c (feed c s p) ps := rfl

theorem feedAll_append (c : Config) (s : State) (ps qs : List (List Nat × List Nat)) :
    feedAll c s (ps ++ qs) = feedAll c (feedAll c s ps) qs := by
  unfold feedAll
  exact List.foldl_append _ _ _ _

theorem U64_eq : U64 = 18446744073709551616 := by
  unfold U64
  norm_num

theorem feed_cnt (c : Config) (s : State) (p : List Nat × List Nat) :
    (feed c s p).cnt = (s.cnt + 8) % U64 := by
  by_cases h : FullyEqual p
  · exact (feed_equal c s p h).2.2.1
  · have hd : Differs p := by
      unfold FullyEqual at h
      unfold Differs
      push_neg at h
      exact h
    exact (feed_unequal c s p hd).2.2.1

theorem feedAll_cnt (c : Config) :
    ∀ (ps : List (List Nat × List Nat)) (s : State),
      (feedAll c s ps).cnt % U64 = (s.cnt + 8 * ps.length) % U64 := by
  intro ps
  induction ps with
  | nil => intro s; rfl
  | cons p ps ih =>
    intro s
    rw [feedAll_cons, ih, feed_cnt, List.length_cons]
    rw [U64_eq]
    omega

theorem feedAll_cnt_lt (c : Config) :
    ∀ (ps : List (List Nat × List Nat)) (s : State),
      s.cnt < U64 → (feedAll c s ps).cnt < U64 := by
  intro ps
  induction ps with
  | nil => intro s h; exact h
  | cons p ps ih =>
    intro s _
    rw [feedAll_cons]
    apply ih
    rw [feed_cnt]
    exact Nat.mod_lt _ (by rw [U64_eq]; norm_num)

/-- Equal pairs fed while the run length is at least 2 and "show all" is off
    write nothing, as long as the counter does not wrap. -/
theorem feedAll_silent (c : Config) (hall : c.show_all = 0) :
    ∀ (ps : List (List Nat × List Nat)) (s : State),
      (∀ p ∈ ps, FullyEqual p) → 2 ≤ s.eq_run → s.eq_run + ps.length ≤ U64 →
      (feedAll c s ps).out = s.out ∧
      (feedAll c s ps).eq_run % U64 = (s.eq_run + ps.length) % U64 := by
  intro ps
  induction ps with
  | nil =>
    intro s _ _ _
    exact ⟨rfl, rfl⟩
  | cons p ps ih =>
    intro s heq h2 hle
    have hp := feed_equal c s p (heq p (List.mem_cons_self _ _))
    rw [List.length_cons] at hle
    have hout : (feed c s p).out = s.out := by
      rw [hp.1]
      unfold equalOut
      have ha : ¬ (s.eq_run = 0 ∨ c.show_all = 1) := by
        rintro (h | h)
        · omega
        · omega
      have hb : ¬ s.eq_run = 1 := by omega
      simp [ha, hb]
    rw [feedAll_cons]
    cases ps with
    | nil =>
      refine ⟨hout, ?_⟩
      show (feed c s p).eq_run % U64 = (s.eq_run + 1) % U64
      rw [hp.2.1, Nat.mod_mod]
    | cons q qs =>
      rw [List.length_cons] at hle
      have hlt : s.eq_run + 1 < U64 := by omega
      have hrun : (feed c s p).eq_run = s.eq_run + 1 := by
        rw [hp.2.1, Nat.mod_eq_of_lt hlt]
      have := ih (feed c s p) (fun r hr => heq r (List.mem_cons_of_mem _ hr))
        (by omega) (by rw [hrun, List.length_cons]; omega)
      rw [this.1, this.2, hout, hrun]
      refine ⟨rfl, ?_⟩
      congr 1
      simp only [List.length_cons]
      omega

theorem U64_pos : 0 < U64 := by
  rw [U64_eq]
  norm_num

theorem feed_eq_run_lt (c : Config) (s : State) (p : List Nat × List Nat) :
    (feed c s p).eq_run < U64 := by
  by_cases h : FullyEqual p
  · rw [(feed_equal c s p h).2.1]
    exact Nat.mod_lt _ U64_pos
  · have hd : Differs p := by
      unfold FullyEqual at h
      unfold Differs
      push_neg at h
      exact h
    rw [(feed_unequal c s p hd).2.1]
    exact U64_pos

theorem feedAll_eq_run_lt (c : Config) :
    ∀ (ps : List (List Nat × List Nat)) (s : State),
      s.eq_run < U64 → (feedAll c s ps).eq_run < U64 := by
  intro ps
  induction ps with
  | nil => intro s h; exact h
  | cons p ps ih =>
    intro s _
    rw [feedAll_cons]
    exact ih _ (feed_eq_run_lt c s p)

/-- A run of at least two equal pairs entered with run length 0 and "show all"
    off: the first pair is rendered, the second gives the ellipsis, the others
    are silent, provided the run has at most `2^64` pairs. -/
theorem feedAll_run (c : Config) (s : State) (p0 p1 : List Nat × List Nat)
    (rest : List (List Nat × List Nat))
    (hall : c.show_all = 0) (hrun : s.eq_run = 0) (hN : rest.length + 2 ≤ U64)
    (heq : ∀ p ∈ p0 :: p1 :: rest, FullyEqual p) :
    (feedAll c s (p0 :: p1 :: rest)).out =
      s.out ++ (print_same p0.1 p0.2 c.skip1 c.skip2 s.cnt).out ++ [Tok.lit "...\n"] ∧
    (feedAll c s (p0 :: p1 :: rest)).eq_run = (rest.length + 2) % U64 ∧
    (feedAll c s (p0 :: p1 :: rest)).cnt = (s.cnt + 8 * (rest.length + 2)) % U64 := by
  have h0 := feed_equal c s p0 (heq p0 (List.mem_cons_self _ _))
  have h1 := feed_equal c (feed c s p0) p1
    (heq p1 (List.mem_cons_of_mem _ (List.mem_cons_self _ _)))
  have e0 : (feed c s p0).eq_run = 1 := by
    rw [h0.2.1, hrun, U64_eq]
  have e1 : (feed c (feed c s p0) p1).eq_run = 2 := by
    rw [h1.2.1, e0, U64_eq]
  have o0 : (feed c s p0).out =
      s.out ++ (print_same p0.1 p0.2 c.skip1 c.skip2 s.cnt).out := by
    rw [h0.1]
    unfold equalOut
    simp [hrun]
  have o1 : (feed c (feed c s p0) p1).out =
      s.out ++ (print_same p0.1 p0.2 c.skip1 c.skip2 s.cnt).out ++ [Tok.lit "...\n"] := by
    rw [h1.1, o0, e0]
    unfold equalOut
    simp [hall]
  have hs := feedAll_silent c hall rest (feed c (feed c s p0) p1)
    (fun r hr => heq r (List.mem_cons_of_mem _ (List.mem_cons_of_mem _ hr)))
    (by omega) (by rw [e1]; omega)
  have hlt := feedAll_eq_run_lt c rest (feed c (feed c s p0) p1) (feed_eq_run_lt _ _ _)
  have hc := feedAll_cnt c rest (feed c (feed c s p0) p1)
  have hclt := feedAll_cnt_lt c rest (feed c (feed c s p0) p1)
    (by rw [feed_cnt]; exact Nat.mod_lt _ U64_pos)
  rw [feedAll_cons, feedAll_cons]
  refine ⟨by rw [hs.1, o1], ?_, ?_⟩
  · have := hs.2
    rw [Nat.mod_eq_of_lt hlt, e1] at this
    rw [this]
    congr 1
    omega
  · rw [Nat.mod_eq_of_lt hclt, feed_cnt, feed_cnt] at hc
    rw [hc, U64_eq]
    omega

theorem renderEach_nil (c : Config) (cnt : Nat) : renderEach c cnt [] = [] := rfl

theorem renderEach_cons (c : Config) (cnt : Nat) (p : List Nat × List Nat)
    (ps : List (List Nat × List Nat)) :
    renderEach c cnt (p :: ps) =
      (if FullyEqual p then (print_same p.1 p.2 c.skip1 c.skip2 cnt).out
       else (print_diff p.1 p.2 c.skip1 c.skip2 cnt).out) ++
        renderEach c ((cnt + 8) % U64) ps := rfl

theorem ellipsis_not_mem_print_same (buf1 buf2 : List Nat) (skip1 skip2 cnt : Nat) :
    Tok.lit "...\n" ∉ (print_same buf1 buf2 skip1 skip2 cnt).out := by
  simp [print_same, hexToks, chrToks]

theorem ellipsis_not_mem_print_diff (buf1 buf2 : List Nat) (skip1 skip2 cnt : Nat) :
    Tok.lit "...\n" ∉ (print_diff buf1 buf2 skip1 skip2 cnt).out := by
  simp [print_diff, printDiffLine, hexToksC, chrToksC]

theorem ellipsis_not_mem_renderEach (c : Config) :
    ∀ (ps : List (List Nat × List Nat)) (cnt : Nat),
      Tok.lit "...\n" ∉ renderEach c cnt ps := by
  intro ps
  induction ps with
  | nil => intro cnt; simp [renderEach_nil]
  | cons p ps ih =>
    intro cnt
    rw [renderEach_cons, List.mem_append]
    rintro (h | h)
    · split at h
      · exact ellipsis_not_mem_print_same _ _ _ _ _ h
      · exact ellipsis_not_mem_print_diff _ _ _ _ _ h
    · exact ih _ h

theorem differs_of_not_fullyEqual (p : List Nat × List Nat) (h : ¬ FullyEqual p) :
    Differs p := by
  unfold FullyEqual at h
  unfold Differs
  push_neg at h
  exact h

theorem feed_show_all (c : Config) (hall : c.show_all = 1) (s : State)
    (p : List Nat × List Nat) :
    (feed c s p).out = s.out ++ renderEach c s.cnt [p] := by
  rw [renderEach_cons, renderEach_nil, List.append_nil]
  by_cases h : FullyEqual p
  · rw [(feed_equal c s p h).1, if_pos h]
    unfold equalOut
    rw [if_pos (Or.inr hall)]
  · rw [(feed_unequal c s p (differs_of_not_fullyEqual p h)).1, if_neg h]

theorem feedAll_show_all (c : Config) (hall : c.show_all = 1) :
    ∀ (ps : List (List Nat × List Nat)) (s : State),
      (feedAll c s ps).out = s.out ++ renderEach c s.cnt ps := by
  intro ps
  induction ps with
  | nil => intro s; simp [feedAll, renderEach_nil]
  | cons p ps ih =>
    intro s
    rw [feedAll_cons, ih, feed_show_all c hall, feed_cnt, renderEach_cons c s.cnt p ps,
      renderEach_cons c s.cnt p [], renderEach_nil, List.append_nil, List.append_assoc]

/-! ## Offsets and the iterated loop body -/

theorem range8 : List.range 8 = [0, 1, 2, 3, 4, 5, 6, 7] := by decide

theorem addrs_print_same (buf1 buf2 : List Nat) (skip1 skip2 cnt : Nat) :
    addrs (print_same buf1 buf2 skip1 skip2 cnt).out =
      [(skip1 + cnt) % U64, (skip2 + cnt) % U64] := by
  simp [addrs, print_same, hexToks, chrToks, range8]

theorem addrs_print_diff (buf1 buf2 : List Nat) (skip1 skip2 cnt : Nat) :
    addrs (print_diff buf1 buf2 skip1 skip2 cnt).out =
      [(skip1 + cnt) % U64, (skip2 + cnt) % U64] := by
  simp [addrs, print_diff, printDiffLine, hexToksC, chrToksC, range8]

theorem body_eq_feed (c : Config) (s : State) :
    body c s = feed c (readChunks s) ((readChunks s).buf1, (readChunks s).buf2) := rfl

theorem readChunks_cnt (s : State) : (readChunks s).cnt = s.cnt := rfl

theorem readChunks_eq_run (s : State) : (readChunks s).eq_run = s.eq_run := rfl

theorem readChunks_out (s : State) : (readChunks s).out = s.out := rfl

theorem readChunks_iters (s : State) : (readChunks s).iters = s.iters := rfl

theorem body_cnt (c : Config) (s : State) : (body c s).cnt = (s.cnt + 8) % U64 := by
  rw [body_eq_feed, feed_cnt, readChunks_cnt]

theorem feed_iters (c : Config) (s : State) (p : List Nat × List Nat) :
    (feed c s p).iters = s.iters + 1 := by
  by_cases h : FullyEqual p
  · exact (feed_equal c s p h).2.2.2.1
  · exact (feed_unequal c s p (differs_of_not_fullyEqual p h)).2.2.2.1

theorem body_iters (c : Config) (s : State) : (body c s).iters = s.iters + 1 := by
  rw [body_eq_feed, feed_iters, readChunks_iters]

theorem feed_out (c : Config) (s : State) (p : List Nat × List Nat) :
    (feed c s p).out = s.out ++ stepOut c s.eq_run s.cnt p.1 p.2 := by
  unfold stepOut
  by_cases h : FullyEqual p
  · rw [(feed_equal c s p h).1, if_pos h]
  · rw [(feed_unequal c s p (differs_of_not_fullyEqual p h)).1, if_neg h]

theorem body_out (c : Config) (s : State) :
    (body c s).out =
      s.out ++ stepOut c s.eq_run s.cnt (readChunks s).buf1 (readChunks s).buf2 := by
  rw [body_eq_feed, feed_out]
  rfl

theorem bodyN_zero (c : Config) (s : State) : bodyN c 0 s = s := rfl

theorem bodyN_succ (c : Config) (n : Nat) (s : State) :
    bodyN c (n + 1) s = bodyN c n (body c s) := rfl

theorem bodyN_succ_last (c : Config) :
    ∀ (n : Nat) (s : State), bodyN c (n + 1) s = body c (bodyN c n s) := by
  intro n
  induction n with
  | zero => intro s; rfl
  | succ n ih =>
    intro s
    rw [bodyN_succ, ih (body c s)]
    rfl

theorem bodyN_iters (c : Config) :
    ∀ (n : Nat) (s : State), (bodyN c n s).iters = s.iters + n := by
  intro n
  induction n with
  | zero => intro s; rfl
  | succ n ih =>
    intro s
    rw [bodyN_succ, ih, body_iters]
    omega

theorem bodyN_cnt (c : Config) :
    ∀ (n : Nat) (s : State), s.cnt < U64 → (bodyN c n s).cnt = (s.cnt + 8 * n) % U64 := by
  intro n
  induction n with
  | zero =>
    intro s h
    rw [bodyN_zero, Nat.mul_zero, Nat.add_zero, Nat.mod_eq_of_lt h]
  | succ n ih =>
    intro s _
    rw [bodyN_succ, ih _ (by rw [body_cnt]; exact Nat.mod_lt _ U64_pos), body_cnt, U64_eq]
    omega

theorem addrs_stepOut (c : Config) (eq_run cnt : Nat) (buf1 buf2 : List Nat) :
    addrs (stepOut c eq_run cnt buf1 buf2) = [] ∨
    addrs (stepOut c eq_run cnt buf1 buf2) =
      [(c.skip1 + cnt) % U64, (c.skip2 + cnt) % U64] := by
  unfold stepOut equalOut
  split
  · split
    · exact Or.inr (addrs_print_same _ _ _ _ _)
    · split
      · exact Or.inl rfl
      · exact Or.inl rfl
  · exact Or.inr (addrs_print_diff _ _ _ _ _)

/-! ## Reading chunks -/

theorem fread8_memset0 (file : List Nat) :
    fread8 memset0 file = (zeroFill file, min 8 file.length, file.drop 8) := by
  unfold fread8 memset0 zeroFill
  simp only [List.length_take, List.drop_replicate]
  have h : 8 - min 8 file.length = 8 - file.length := by omega
  rw [h]

theorem readChunks_buf1 (s : State) : (readChunks s).buf1 = zeroFill s.file1 := by
  unfold readChunks
  simp only [fread8_memset0]

theorem readChunks_buf2 (s : State) : (readChunks s).buf2 = zeroFill s.file2 := by
  unfold readChunks
  simp only [fread8_memset0]

theorem readChunks_file1 (s : State) : (readChunks s).file1 = s.file1.drop 8 := rfl

theorem readChunks_file2 (s : State) : (readChunks s).file2 = s.file2.drop 8 := rfl

theorem readChunks_input_end (s : State) :
    (readChunks s).input_end =
      if s.file1.length < 8 ∨ s.file2.length < 8 then 1 else s.input_end := by
  unfold readChunks
  simp only [fread8_memset0]
  by_cases h1 : s.file1.length < 8
  · by_cases h2 : s.file2.length < 8
    · have a1 : min 8 s.file1.length ≠ 8 := by omega
      have a2 : min 8 s.file2.length ≠ 8 := by omega
      simp [a1, a2, h1]
    · have a1 : min 8 s.file1.length ≠ 8 := by omega
      have a2 : min 8 s.file2.length = 8 := by omega
      simp [a1, a2, h1]
  · by_cases h2 : s.file2.length < 8
    · have a1 : min 8 s.file1.length = 8 := by omega
      have a2 : min 8 s.file2.length ≠ 8 := by omega
      simp [a1, a2, h1, h2]
    · have a1 : min 8 s.file1.length = 8 := by omega
      have a2 : min 8 s.file2.length = 8 := by omega
      simp [a1, a2, h1, h2]

theorem feed_input_end (c : Config) (s : State) (p : List Nat × List Nat) :
    (feed c s p).input_end = s.input_end := by
  by_cases h : FullyEqual p
  · exact (feed_equal c s p h).2.2.2.2.1
  · exact (feed_unequal c s p (differs_of_not_fullyEqual p h)).2.2.2.2.1

theorem feed_file1 (c : Config) (s : State) (p : List Nat × List Nat) :
    (feed c s p).file1 = s.file1 := by
  by_cases h : FullyEqual p
  · exact (feed_equal c s p h).2.2.2.2.2.1
  · exact (feed_unequal c s p (differs_of_not_fullyEqual p h)).2.2.2.2.2.1

theorem feed_file2 (c : Config) (s : State) (p : List Nat × List Nat) :
    (feed c s p).file2 = s.file2 := by
  by_cases h : FullyEqual p
  · exact (feed_equal c s p h).2.2.2.2.2.2
  · exact (feed_unequal c s p (differs_of_not_fullyEqual p h)).2.2.2.2.2.2

theorem body_input_end (c : Config) (s : State) :
    (body c s).input_end =
      if s.file1.length < 8 ∨ s.file2.length < 8 then 1 else s.input_end := by
  rw [body_eq_feed, feed_input_end, readChunks_input_end]

theorem body_file1 (c : Config) (s : State) : (body c s).file1 = s.file1.drop 8 := by
  rw [body_eq_feed, feed_file1, readChunks_file1]

theorem body_file2 (c : Config) (s : State) : (body c s).file2 = s.file2.drop 8 := by
  rw [body_eq_feed, feed_file2, readChunks_file2]

theorem body_out_zeroFill (c : Config) (s : State) :
    (body c s).out =
      s.out ++ stepOut c s.eq_run s.cnt (zeroFill s.file1) (zeroFill s.file2) := by
  rw [body_out, readChunks_buf1, readChunks_buf2]

/-! ## The loop -/

theorem loop_of_not_cond (c : Config) (sig : Nat → Nat) (s : State)
    (h : loopCond c sig s = false) : ∀ fuel, loop c sig fuel s = some s := by
  intro fuel
  cases fuel with
  | zero => simp [loop, h]
  | succ n => simp [loop, h]

theorem loop_succ_of_cond (c : Config) (sig : Nat → Nat) (s : State)
    (h : loopCond c sig s = true) (fuel : Nat) :
    loop c sig (fuel + 1) s = loop c sig fuel (body c s) := by
  simp [loop, h]

theorem loopCond_of_input_end (c : Config) (sig : Nat → Nat) (s : State)
    (h : s.input_end = 1) : loopCond c sig s = false := by
  simp [loopCond, h]

/-- When the test holds before each of the first `k` bodies and fails after
    them, the loop returns the state after `k` bodies. -/
theorem loop_eq_bodyN (c : Config) (sig : Nat → Nat) :
    ∀ (k : Nat) (s : State),
      (∀ j, j < k → loopCond c sig (bodyN c j s) = true) →
      loopCond c sig (bodyN c k s) = false →
      ∀ fuel, k ≤ fuel → loop c sig fuel s = some (bodyN c k s) := by
  intro k
  induction k with
  | zero =>
    intro s _ hstop fuel _
    exact loop_of_not_cond c sig s hstop fuel
  | succ k ih =>
    intro s hgo hstop fuel hfuel
    obtain ⟨f, rfl⟩ : ∃ f, fuel = f + 1 := ⟨fuel - 1, by omega⟩
    rw [loop_succ_of_cond c sig s (hgo 0 (Nat.succ_pos k)), bodyN_succ]
    apply ih (body c s)
    · intro j hj
      have := hgo (j + 1) (by omega)
      rw [bodyN_succ] at this
      exact this
    · rw [bodyN_succ] at hstop
      exact hstop
    · omega

/-- Whatever the loop returns is the state after some number of bodies, before
    each of which the test held and after which it fails. -/
theorem loop_some_bodyN (c : Config) (sig : Nat → Nat) :
    ∀ (fuel : Nat) (s r : State), loop c sig fuel s = some r →
      ∃ k, k ≤ fuel ∧ r = bodyN c k s ∧
        (∀ j, j < k → loopCond c sig (bodyN c j s) = true) ∧
        loopCond c sig r = false := by
  intro fuel
  induction fuel with
  | zero =>
    intro s r h
    by_cases hc : loopCond c sig s = true
    · simp [loop, hc] at h
    · have hc2 : loopCond c sig s = false := by simpa using hc
      rw [loop_of_not_cond c sig s hc2] at h
      have hr : s = r := Option.some.inj h
      subst hr
      exact ⟨0, le_refl 0, rfl, fun j hj => absurd hj (Nat.not_lt_zero j), hc2⟩
  | succ n ih =>
    intro s r h
    by_cases hc : loopCond c sig s = true
    · rw [loop_succ_of_cond c sig s hc] at h
      obtain ⟨k, hk, hr, hgo, hstop⟩ := ih (body c s) r h
      refine ⟨k + 1, by omega, hr, ?_, hstop⟩
      intro j hj
      cases j with
      | zero => exact hc
      | succ j =>
        rw [bodyN_succ]
        exact hgo j (by omega)
    · have hc2 : loopCond c sig s = false := by simpa using hc
      rw [loop_of_not_cond c sig s hc2] at h
      have hr : s = r := Option.some.inj h
      subst hr
      exact ⟨0, Nat.zero_le _, rfl, fun j hj => absurd hj (Nat.not_lt_zero j), hc2⟩

/-- The loop terminates: a bound of `file1.length / 8 + 1` bodies is never
    used up. -/
theorem loop_isSome (c : Config) (sig : Nat → Nat) :
    ∀ (fuel : Nat) (s : State),
      (s.input_end = 1 ∨ s.file1.length / 8 + 1 ≤ fuel) →
      ∃ r, loop c sig fuel s = some r := by
  intro fuel
  induction fuel with
  | zero =>
    intro s h
    rcases h with h | h
    · exact ⟨s, loop_of_not_cond c sig s (loopCond_of_input_end c sig s h) 0⟩
    · omega
  | succ n ih =>
    intro s h
    by_cases hc : loopCond c sig s = true
    · rw [loop_succ_of_cond c sig s hc]
      apply ih
      rcases h with h | h
      · rw [loopCond_of_input_end c sig s h] at hc
        exact absurd hc (by decide)
      · by_cases hlen : s.file1.length < 8
        · left
          rw [body_input_end, if_pos (Or.inl hlen)]
        · right
          rw [body_file1, List.length_drop]
          omega
    · have hc2 : loopCond c sig s = false := by simpa using hc
      exact ⟨s, loop_of_not_cond c sig s hc2 (n + 1)⟩

theorem compareLoop_isSome (c : Config) (sig : Nat → Nat) (file1 file2 : List Nat) :
    ∃ r, compareLoop c sig file1 file2 = some r :=
  loop_isSome c sig _ (initState file1 file2) (Or.inr (le_refl _))

theorem loopCond_initState (c : Config) (sig : Nat → Nat) (file1 file2 : List Nat)
    (h : sig 0 = 0) : loopCond c sig (initState file1 file2) = true := by
  unfold loopCond initState
  simp only [h]
  by_cases hm : c.max_len = 0
  · simp [hm]
  · have : 0 < c.max_len := Nat.pos_of_ne_zero hm
    simp [this]

theorem zeroFill_of_short (file : List Nat) (h : file.length < 8) :
    zeroFill file = file ++ List.replicate (8 - file.length) 0 := by
  unfold zeroFill
  rw [List.take_of_length_le (by omega)]

theorem zeroFill_of_full (file : List Nat) (h : 8 ≤ file.length) :
    zeroFill file = file.take 8 := by
  unfold zeroFill
  have : 8 - file.length = 0 := by omega
  rw [this]
  simp

theorem loopCond_eq_true_iff (c : Config) (sig : Nat → Nat) (s : State) :
    loopCond c sig s = true ↔
      s.input_end = 0 ∧ (s.cnt < c.max_len ∨ c.max_len = 0) ∧ sig s.iters = 0 := by
  simp [loopCond, and_assoc]

theorem loopCond_eq_false_of_limit (c : Config) (sig : Nat → Nat) (s : State)
    (hpos : 0 < c.max_len) (h : c.max_len ≤ s.cnt) : loopCond c sig s = false := by
  cases hc : loopCond c sig s with
  | false => rfl
  | true =>
    rw [loopCond_eq_true_iff] at hc
    omega

/-- While `cnt` is `8 * iters` and the limit is at most `2^64 - 8`, the loop
    stops before `8 * iters` reaches `max_len + 8`. -/
theorem loop_limit_inv (c : Config) (sig : Nat → Nat) (hpos : 0 < c.max_len)
    (hle : c.max_len + 8 ≤ U64) :
    ∀ (fuel : Nat) (s r : State),
      s.cnt = 8 * s.iters → 8 * s.iters < c.max_len + 8 →
      loop c sig fuel s = some r →
      r.cnt = 8 * r.iters ∧ 8 * r.iters < c.max_len + 8 := by
  intro fuel
  induction fuel with
  | zero =>
    intro s r h1 h2 h
    by_cases hc : loopCond c sig s = true
    · simp [loop, hc] at h
    · have hc2 : loopCond c sig s = false := by simpa using hc
      rw [loop_of_not_cond c sig s hc2] at h
      have hr : s = r := Option.some.inj h
      subst hr
      exact ⟨h1, h2⟩
  | succ n ih =>
    intro s r h1 h2 h
    by_cases hc : loopCond c sig s = true
    · rw [loop_succ_of_cond c sig s hc] at h
      have hlt : s.cnt < c.max_len := by
        rw [loopCond_eq_true_iff] at hc
        omega
      have hcnt : (body c s).cnt = s.cnt + 8 := by
        rw [body_cnt]
        exact Nat.mod_eq_of_lt (by omega)
      apply ih (body c s) r _ _ h
      · rw [hcnt, body_iters]
        omega
      · rw [body_iters]
        omega
    · have hc2 : loopCond c sig s = false := by simpa using hc
      rw [loop_of_not_cond c sig s hc2] at h
      have hr : s = r := Option.some.inj h
      subst hr
      exact ⟨h1, h2⟩

/-- As long as both streams still hold eight bytes per body, `n` bodies leave
    `input_end` alone and consume `8 * n` bytes of each stream. -/
theorem bodyN_full (c : Config) :
    ∀ (n : Nat) (s : State), 8 * n ≤ s.file1.length → 8 * n ≤ s.file2.length →
      (bodyN c n s).input_end = s.input_end ∧
      (bodyN c n s).file1 = s.file1.drop (8 * n) ∧
      (bodyN c n s).file2 = s.file2.drop (8 * n) := by
  intro n
  induction n with
  | zero =>
    intro s _ _
    exact ⟨rfl, rfl, rfl⟩
  | succ n ih =>
    intro s h1 h2
    obtain ⟨he, hf1, hf2⟩ := ih s (by omega) (by omega)
    have hl1 : (bodyN c n s).file1.length = s.file1.length - 8 * n := by
      rw [hf1, List.length_drop]
    have hl2 : (bodyN c n s).file2.length = s.file2.length - 8 * n := by
      rw [hf2, List.length_drop]
    rw [bodyN_succ_last]
    refine ⟨?_, ?_, ?_⟩
    · rw [body_input_end, if_neg (by omega), he]
    · rw [body_file1, hf1, List.drop_drop, Nat.mul_succ]
    · rw [body_file2, hf2, List.drop_drop, Nat.mul_succ]

theorem initState_cnt_lt (file1 file2 : List Nat) : (initState file1 file2).cnt < U64 :=
  U64_pos

theorem bodyN_initState_cnt (c : Config) (n : Nat) (file1 file2 : List Nat) :
    (bodyN c n (initState file1 file2)).cnt = (8 * n) % U64 := by
  rw [bodyN_cnt c n _ (initState_cnt_lt file1 file2)]
  show (0 + 8 * n) % U64 = _
  rw [Nat.zero_add]

/-- With a limit `0 < max_len ≤ 2^64 - 8`, inputs of at least `max_len` bytes
    and no signal, the loop returns after `(max_len + 7) / 8` bodies. -/
theorem loop_with_limit (c : Config) (sig : Nat → Nat) (file1 file2 : List Nat)
    (hpos : 0 < c.max_len) (hle : c.max_len + 8 ≤ U64)
    (h1 : c.max_len ≤ file1.length) (h2 : c.max_len ≤ file2.length)
    (hsig : ∀ k, sig k = 0) :
    ∀ fuel, (c.max_len + 7) / 8 ≤ fuel →
      loop c sig fuel (initState file1 file2) =
        some (bodyN c ((c.max_len + 7) / 8) (initState file1 file2)) := by
  apply loop_eq_bodyN
  · intro j hj
    rw [loopCond_eq_true_iff]
    have hfull := bodyN_full c j (initState file1 file2)
      (by show 8 * j ≤ file1.length; omega) (by show 8 * j ≤ file2.length; omega)
    refine ⟨?_, ?_, hsig _⟩
    · rw [hfull.1]
      rfl
    · left
      rw [bodyN_initState_cnt, U64_eq]
      rw [U64_eq] at hle
      omega
  · apply loopCond_eq_false_of_limit c sig _ hpos
    rw [bodyN_initState_cnt, U64_eq]
    rw [U64_eq] at hle
    omega

/-- With a limit above `2^64 - 8`, inputs of at least `max_len` bytes one of
    which is shorter than `2^64` bytes, and no signal, the loop returns after
    `(max_len + 7) / 8` bodies as well: the last of them reads short. -/
theorem loop_with_limit_short_stream (c : Config) (sig : Nat → Nat)
    (file1 file2 : List Nat) (hbig : U64 < c.max_len + 8)
    (hshort : file1.length < U64 ∨ file2.length < U64)
    (h1 : c.max_len ≤ file1.length) (h2 : c.max_len ≤ file2.length)
    (hsig : ∀ k, sig k = 0) :
    ∀ fuel, (c.max_len + 7) / 8 ≤ fuel →
      loop c sig fuel (initState file1 file2) =
        some (bodyN c ((c.max_len + 7) / 8) (initState file1 file2)) := by
  rw [U64_eq] at hbig hshort
  have hL : c.max_len < 18446744073709551616 := by omega
  have hK : (c.max_len + 7) / 8 = 2305843009213693951 + 1 := by omega
  rw [hK]
  apply loop_eq_bodyN
  · intro j hj
    rw [loopCond_eq_true_iff]
    have hfull := bodyN_full c j (initState file1 file2)
      (by show 8 * j ≤ file1.length; omega) (by show 8 * j ≤ file2.length; omega)
    refine ⟨?_, ?_, hsig _⟩
    · rw [hfull.1]
      rfl
    · left
      rw [bodyN_initState_cnt, U64_eq]
      omega
  · apply loopCond_of_input_end
    have hfull := bodyN_full c 2305843009213693951 (initState file1 file2)
      (by show 8 * 2305843009213693951 ≤ file1.length; omega)
      (by show 8 * 2305843009213693951 ≤ file2.length; omega)
    rw [bodyN_succ_last, body_input_end, if_pos]
    rw [hfull.2.1, hfull.2.2, List.length_drop, List.length_drop]
    show file1.length - 8 * 2305843009213693951 < 8 ∨
      file2.length - 8 * 2305843009213693951 < 8
    omega

theorem loop_with_limit_general (c : Config) (sig : Nat → Nat) (file1 file2 : List Nat)
    (hpos : 0 < c.max_len)
    (hle : c.max_len + 8 ≤ U64 ∨ file1.length < U64 ∨ file2.length < U64)
    (h1 : c.max_len ≤ file1.length) (h2 : c.max_len ≤ file2.length)
    (hsig : ∀ k, sig k = 0) :
    ∀ fuel, (c.max_len + 7) / 8 ≤ fuel →
      loop c sig fuel (initState file1 file2) =
        some (bodyN c ((c.max_len + 7) / 8) (initState file1 file2)) := by
  by_cases hb : c.max_len + 8 ≤ U64
  · exact loop_with_limit c sig file1 file2 hpos hb h1 h2 hsig
  · have hshort : file1.length < U64 ∨ file2.length < U64 := by
      rcases hle with h | h
      · exact absurd h hb
      · exact h
    exact loop_with_limit_short_stream c sig file1 file2 (by omega) hshort h1 h2 hsig

theorem fullyEqual_self (buf : List Nat) : FullyEqual (buf, buf) := fun _ _ => rfl

/-- With the limit `2^64 - 1` the counter wraps before it can reach the limit:
    on streams of `2^64 + 8` bytes the loop runs until the input ends, after
    `2^64 / 8 + 2` bodies. -/
theorem loop_limit_wraps (file1 file2 : List Nat)
    (h1 : file1.length = U64 + 8) (h2 : file2.length = U64 + 8) :
    compareLoop cfgLimitMax noSigint file1 file2 =
      some (bodyN cfgLimitMax (U64 / 8 + 2) (initState file1 file2)) := by
  unfold compareLoop
  have hfuel : file1.length / 8 + 1 = U64 / 8 + 2 := by
    rw [h1, U64_eq]
  rw [hfuel]
  apply loop_eq_bodyN cfgLimitMax noSigint (U64 / 8 + 2) (initState file1 file2) _ _ _
    (le_refl _)
  · intro j hj
    rw [loopCond_eq_true_iff]
    have hj8 : 8 * j ≤ U64 + 8 := by
      rw [U64_eq] at hj ⊢
      omega
    have hfull := bodyN_full cfgLimitMax j (initState file1 file2)
      (by show 8 * j ≤ file1.length; rw [h1]; exact hj8)
      (by show 8 * j ≤ file2.length; rw [h2]; exact hj8)
    refine ⟨?_, ?_, rfl⟩
    · rw [hfull.1]
      rfl
    · left
      rw [bodyN_initState_cnt]
      show 8 * j % U64 < U64 - 1
      rw [U64_eq]
      omega
  · apply loopCond_of_input_end
    have hk : U64 / 8 + 2 = (U64 / 8 + 1) + 1 := rfl
    have hk8 : 8 * (U64 / 8 + 1) = U64 + 8 := by
      rw [U64_eq]
    have hfull := bodyN_full cfgLimitMax (U64 / 8 + 1) (initState file1 file2)
      (by show 8 * (U64 / 8 + 1) ≤ file1.length; rw [h1, hk8])
      (by show 8 * (U64 / 8 + 1) ≤ file2.length; rw [h2, hk8])
    rw [hk, bodyN_succ_last, body_input_end, if_pos]
    left
    rw [hfull.2.1, List.length_drop]
    show file1.length - 8 * (U64 / 8 + 1) < 8
    rw [h1, hk8]
    omega

theorem getD_take8 (l : List Nat) (i : Nat) (h : i < 8) :
    (l.take 8).getD i 0 = l.getD i 0 := by
  rw [List.getD_eq_getElem?_getD, List.getD_eq_getElem?_getD, List.getElem?_take_of_lt h]

theorem getD_drop8 (l : List Nat) (i : Nat) :
    (l.drop 8).getD i 0 = l.getD (8 + i) 0 := by
  rw [List.getD_eq_getElem?_getD, List.getD_eq_getElem?_getD, List.getElem?_drop]

theorem feed_eq_run (c : Config) (s : State) (p : List Nat × List Nat) :
    (feed c s p).eq_run = if FullyEqual p then (s.eq_run + 1) % U64 else 0 := by
  by_cases h : FullyEqual p
  · rw [(feed_equal c s p h).2.1, if_pos h]
  · rw [(feed_unequal c s p (differs_of_not_fullyEqual p h)).2.1, if_neg h]

theorem body_eq_run (c : Config) (s : State) :
    (body c s).eq_run =
      if FullyEqual (zeroFill s.file1, zeroFill s.file2) then (s.eq_run + 1) % U64 else 0 := by
  rw [body_eq_feed, feed_eq_run, readChunks_buf1, readChunks_buf2]
  rfl

theorem not_fullyEqual_of_differs (p : List Nat × List Nat) (h : Differs p) :
    ¬ FullyEqual p := by
  intro he
  obtain ⟨i, hi, hne⟩ := h
  exact hne (he i hi)

/-- The run on two 16-byte streams that differ exactly at index 9, with default
    flags and no signal: three bodies, the third on the zero-filled pair read
    at the end of both streams. -/
theorem loop_two_chunks (sig : Nat → Nat) (file1 file2 : List Nat)
    (hl1 : file1.length = 16) (hl2 : file2.length = 16)
    (hsame : ∀ i, i < 16 → i ≠ 9 → file1.getD i 0 = file2.getD i 0)
    (hdiff : file1.getD 9 0 ≠ file2.getD 9 0) (hsig : ∀ k, sig k = 0) :
    compareLoop cfgDefault sig file1 file2 =
      some (bodyN cfgDefault 3 (initState file1 file2)) ∧
    (bodyN cfgDefault 3 (initState file1 file2)).out =
      header ++ (print_same (file1.take 8) (file2.take 8) 0 0 0).out ++
        (print_diff (file1.drop 8) (file2.drop 8) 0 0 8).out ++
        (print_same memset0 memset0 0 0 16).out := by
  have hfull : ∀ j, j ≤ 2 →
      (bodyN cfgDefault j (initState file1 file2)).input_end = 0 ∧
      (bodyN cfgDefault j (initState file1 file2)).file1 = file1.drop (8 * j) ∧
      (bodyN cfgDefault j (initState file1 file2)).file2 = file2.drop (8 * j) := by
    intro j hj
    exact bodyN_full cfgDefault j (initState file1 file2)
      (by show 8 * j ≤ file1.length; omega) (by show 8 * j ≤ file2.length; omega)
  have hb3 : bodyN cfgDefault 3 (initState file1 file2) =
      body cfgDefault (bodyN cfgDefault 2 (initState file1 file2)) :=
    bodyN_succ_last cfgDefault 2 _
  have hb2 : bodyN cfgDefault 2 (initState file1 file2) =
      body cfgDefault (bodyN cfgDefault 1 (initState file1 file2)) :=
    bodyN_succ_last cfgDefault 1 _
  have hb1 : bodyN cfgDefault 1 (initState file1 file2) =
      body cfgDefault (initState file1 file2) := rfl
  -- the three chunk pairs
  have z0a : zeroFill (initState file1 file2).file1 = file1.take 8 :=
    zeroFill_of_full file1 (by omega)
  have z0b : zeroFill (initState file1 file2).file2 = file2.take 8 :=
    zeroFill_of_full file2 (by omega)
  have z1a : zeroFill (bodyN cfgDefault 1 (initState file1 file2)).file1 = file1.drop 8 := by
    rw [(hfull 1 (by omega)).2.1]
    unfold zeroFill
    rw [List.take_of_length_le (by rw [List.length_drop]; omega), List.length_drop, hl1]
    exact List.append_nil _
  have z1b : zeroFill (bodyN cfgDefault 1 (initState file1 file2)).file2 = file2.drop 8 := by
    rw [(hfull 1 (by omega)).2.2]
    unfold zeroFill
    rw [List.take_of_length_le (by rw [List.length_drop]; omega), List.length_drop, hl2]
    exact List.append_nil _
  have z2a : zeroFill (bodyN cfgDefault 2 (initState file1 file2)).file1 = memset0 := by
    rw [(hfull 2 (by omega)).2.1, List.drop_of_length_le (by omega)]
    rfl
  have z2b : zeroFill (bodyN cfgDefault 2 (initState file1 file2)).file2 = memset0 := by
    rw [(hfull 2 (by omega)).2.2, List.drop_of_length_le (by omega)]
    rfl
  have e0 : FullyEqual (file1.take 8, file2.take 8) := by
    intro i hi
    show (file1.take 8).getD i 0 = (file2.take 8).getD i 0
    rw [getD_take8 _ _ hi, getD_take8 _ _ hi]
    exact hsame i (by omega) (by omega)
  have e1 : ¬ FullyEqual (file1.drop 8, file2.drop 8) := by
    apply not_fullyEqual_of_differs
    refine ⟨1, by omega, ?_⟩
    show (file1.drop 8).getD 1 0 ≠ (file2.drop 8).getD 1 0
    rw [getD_drop8, getD_drop8]
    exact hdiff
  -- run lengths and counters
  have r1 : (bodyN cfgDefault 1 (initState file1 file2)).eq_run = 1 := by
    rw [hb1, body_eq_run, z0a, z0b, if_pos e0]
    rfl
  have r2 : (bodyN cfgDefault 2 (initState file1 file2)).eq_run = 0 := by
    rw [hb2, body_eq_run, z1a, z1b, if_neg e1]
  have c1 : (bodyN cfgDefault 1 (initState file1 file2)).cnt = 8 := by
    rw [bodyN_initState_cnt]; rfl
  have c2 : (bodyN cfgDefault 2 (initState file1 file2)).cnt = 16 := by
    rw [bodyN_initState_cnt]; rfl
  have o1 : (bodyN cfgDefault 1 (initState file1 file2)).out =
      header ++ (print_same (file1.take 8) (file2.take 8) 0 0 0).out := by
    rw [hb1, body_out_zeroFill, z0a, z0b]
    unfold stepOut equalOut
    rw [if_pos e0]
    rfl
  have o2 : (bodyN cfgDefault 2 (initState file1 file2)).out =
      header ++ (print_same (file1.take 8) (file2.take 8) 0 0 0).out ++
        (print_diff (file1.drop 8) (file2.drop 8) 0 0 8).out := by
    rw [hb2, body_out_zeroFill, z1a, z1b, o1, c1]
    unfold stepOut
    rw [if_neg e1]
    rfl
  refine ⟨?_, ?_⟩
  · unfold compareLoop
    apply loop_eq_bodyN cfgDefault sig 3 (initState file1 file2)
    · intro j hj
      rw [loopCond_eq_true_iff]
      exact ⟨(hfull j (by omega)).1, Or.inr rfl, hsig _⟩
    · apply loopCond_of_input_end
      rw [hb3, body_input_end, if_pos]
      left
      rw [(hfull 2 (by omega)).2.1, List.length_drop]
      omega
    · rw [hl1]
  · rw [hb3, body_out_zeroFill, z2a, z2b, o2, r2, c2]
    unfold stepOut equalOut
    rw [if_pos (fullyEqual_self memset0)]
    rfl

/-! ## Colours in effect along a diff-mode line -/

theorem byteColours_lit (cur : Esc) (t : String) (ts : List Tok) :
    byteColours cur (Tok.lit t :: ts) = byteColours cur ts := rfl

theorem byteColours_addr (cur : Esc) (v : Nat) (ts : List Tok) :
    byteColours cur (Tok.addr v :: ts) = byteColours cur ts := rfl

theorem byteColours_esc (cur e : Esc) (ts : List Tok) :
    byteColours cur (Tok.esc e :: ts) = byteColours (stepCol cur e) ts := rfl

theorem byteColours_hex_section (m : List Esc) (buf : List Nat) (rest : List Tok) :
    ∀ (is : List Nat) (cur : Esc),
      byteColours cur
          (is.flatMap (fun i => [Tok.esc (m.getD i .empty_str), Tok.hex (buf.getD i 0)])
            ++ rest) =
        (trackIdx m cur is).1 ++ byteColours (trackIdx m cur is).2 rest := by
  intro is
  induction is with
  | nil => intro cur; rfl
  | cons i is ih =>
    intro cur
    show byteColours cur (Tok.esc (m.getD i .empty_str) :: Tok.hex (buf.getD i 0) ::
      (is.flatMap (fun i => [Tok.esc (m.getD i .empty_str), Tok.hex (buf.getD i 0)])
        ++ rest)) = _
    show stepCol cur (m.getD i .empty_str) :: byteColours (stepCol cur (m.getD i .empty_str))
      (is.flatMap (fun i => [Tok.esc (m.getD i .empty_str), Tok.hex (buf.getD i 0)])
        ++ rest) = _
    rw [ih]
    rfl

theorem byteColours_chr_section (m : List Esc) (buf : List Nat) (rest : List Tok) :
    ∀ (is : List Nat) (cur : Esc),
      byteColours cur
          (is.flatMap (fun i => [Tok.esc (m.getD i .empty_str), Tok.chr (buf.getD i 0)])
            ++ rest) =
        (trackIdx m cur is).1 ++ byteColours (trackIdx m cur is).2 rest := by
  intro is
  induction is with
  | nil => intro cur; rfl
  | cons i is ih =>
    intro cur
    show stepCol cur (m.getD i .empty_str) :: byteColours (stepCol cur (m.getD i .empty_str))
      (is.flatMap (fun i => [Tok.esc (m.getD i .empty_str), Tok.chr (buf.getD i 0)])
        ++ rest) = _
    rw [ih]
    rfl

/-- Colours along a whole line printed by `printDiffLine`. -/
theorem byteColours_printDiffLine (m : List Esc) (buf1 buf2 : List Nat)
    (skip1 skip2 cnt : Nat) (cur : Esc) :
    byteColours cur (printDiffLine m buf1 buf2 skip1 skip2 cnt).out =
      (trackIdx m .ansi_red (List.range 8)).1 ++
      ((trackIdx m (trackIdx m .ansi_red (List.range 8)).2 (List.range 8)).1 ++
      ((trackIdx m .ansi_red (List.range 8)).1 ++
       (trackIdx m (trackIdx m .ansi_red (List.range 8)).2 (List.range 8)).1)) := by
  unfold printDiffLine hexToksC chrToksC
  simp only [List.append_assoc, List.cons_append, List.nil_append]
  rw [byteColours_esc, byteColours_addr, byteColours_lit, byteColours_hex_section,
    byteColours_lit, byteColours_chr_section, byteColours_lit, byteColours_esc,
    byteColours_addr, byteColours_lit, byteColours_hex_section, byteColours_lit,
    byteColours_chr_section, byteColours_lit, byteColours_esc]
  have hred : ∀ c : Esc, stepCol c .ansi_red = .ansi_red := fun _ => rfl
  rw [hred, hred]
  show _ ++ (_ ++ (_ ++ (_ ++ [])))= _
  rw [List.append_nil]

theorem classify_eq_colourOf (buf1 buf2 : List Nat) :
    classify buf1 buf2 =
      [colourOf (decide (buf1.getD 0 0 = buf2.getD 0 0)),
       colourOf (decide (buf1.getD 1 0 = buf2.getD 1 0)),
       colourOf (decide (buf1.getD 2 0 = buf2.getD 2 0)),
       colourOf (decide (buf1.getD 3 0 = buf2.getD 3 0)),
       colourOf (decide (buf1.getD 4 0 = buf2.getD 4 0)),
       colourOf (decide (buf1.getD 5 0 = buf2.getD 5 0)),
       colourOf (decide (buf1.getD 6 0 = buf2.getD 6 0)),
       colourOf (decide (buf1.getD 7 0 = buf2.getD 7 0))] := by
  unfold classify colourOf
  rw [range8]
  simp only [List.map_cons, List.map_nil, decide_eq_true_eq]

/-- With the markers computed by lines 110-128, a section entered in the
    difference colour, or in the colour of position 7, shows every position
    in its own colour and ends in the colour of position 7. -/
theorem trackIdx_markers :
    ∀ p0 p1 p2 p3 p4 p5 p6 p7 : Bool,
      trackIdx (markers [colourOf p0, colourOf p1, colourOf p2, colourOf p3,
          colourOf p4, colourOf p5, colourOf p6, colourOf p7]) .ansi_red
          [0, 1, 2, 3, 4, 5, 6, 7] =
        ([colourOf p0, colourOf p1, colourOf p2, colourOf p3,
          colourOf p4, colourOf p5, colourOf p6, colourOf p7], colourOf p7) ∧
      trackIdx (markers [colourOf p0, colourOf p1, colourOf p2, colourOf p3,
          colourOf p4, colourOf p5, colourOf p6, colourOf p7]) (colourOf p7)
          [0, 1, 2, 3, 4, 5, 6, 7] =
        ([colourOf p0, colourOf p1, colourOf p2, colourOf p3,
          colourOf p4, colourOf p5, colourOf p6, colourOf p7], colourOf p7) := by
  decide

/-- Without the elimination of lines 110-128 the colours are the same. -/
theorem trackIdx_plain :
    ∀ (cur : Esc) (p0 p1 p2 p3 p4 p5 p6 p7 : Bool),
      trackIdx [colourOf p0, colourOf p1, colourOf p2, colourOf p3,
          colourOf p4, colourOf p5, colourOf p6, colourOf p7] cur
          [0, 1, 2, 3, 4, 5, 6, 7] =
        ([colourOf p0, colourOf p1, colourOf p2, colourOf p3,
          colourOf p4, colourOf p5, colourOf p6, colourOf p7], colourOf p7) := by
  intro cur p0 p1 p2 p3 p4 p5 p6 p7
  cases p0 <;> cases p1 <;> cases p2 <;> cases p3 <;> cases p4 <;> cases p5 <;>
    cases p6 <;> cases p7 <;> rfl

theorem classify_length (buf1 buf2 : List Nat) : (classify buf1 buf2).length = 8 := by
  simp [classify]

theorem getD_four_sections (A : List Esc) (hA : A.length = 8) (sec i : Nat)
    (hsec : sec < 4) (hi : i < 8) :
    (A ++ (A ++ (A ++ A))).getD (8 * sec + i) .empty_str = A.getD i .empty_str := by
  have h0 : i < A.length := by omega
  interval_cases sec
  · rw [List.getD_append _ _ _ _ (by omega)]
    congr 1
    omega
  · rw [List.getD_append_right _ _ _ _ (by omega), List.getD_append _ _ _ _ (by omega)]
    congr 1
    omega
  · rw [List.getD_append_right _ _ _ _ (by omega),
      List.getD_append_right _ _ _ _ (by omega), List.getD_append _ _ _ _ (by omega)]
    congr 1
    omega
  · rw [List.getD_append_right _ _ _ _ (by omega),
      List.getD_append_right _ _ _ _ (by omega),
      List.getD_append_right _ _ _ _ (by omega)]
    congr 1
    omega

theorem byteColours_print_diff (buf1 buf2 : List Nat) (skip1 skip2 cnt : Nat) (cur : Esc) :
    byteColours cur (print_diff buf1 buf2 skip1 skip2 cnt).out =
      classify buf1 buf2 ++
        (classify buf1 buf2 ++ (classify buf1 buf2 ++ classify buf1 buf2)) := by
  unfold print_diff
  rw [byteColours_printDiffLine, range8, classify_eq_colourOf]
  obtain ⟨h1, h2⟩ := trackIdx_markers
    (decide (buf1.getD 0 0 = buf2.getD 0 0)) (decide (buf1.getD 1 0 = buf2.getD 1 0))
    (decide (buf1.getD 2 0 = buf2.getD 2 0)) (decide (buf1.getD 3 0 = buf2.getD 3 0))
    (decide (buf1.getD 4 0 = buf2.getD 4 0)) (decide (buf1.getD 5 0 = buf2.getD 5 0))
    (decide (buf1.getD 6 0 = buf2.getD 6 0)) (decide (buf1.getD 7 0 = buf2.getD 7 0))
  rw [h1]
  simp only []
  rw [h2]

theorem byteColours_plain_line (buf1 buf2 : List Nat) (skip1 skip2 cnt : Nat) (cur : Esc) :
    byteColours cur (printDiffLine (classify buf1 buf2) buf1 buf2 skip1 skip2 cnt).out =
      classify buf1 buf2 ++
        (classify buf1 buf2 ++ (classify buf1 buf2 ++ classify buf1 buf2)) := by
  rw [byteColours_printDiffLine, range8, classify_eq_colourOf]
  rw [trackIdx_plain .ansi_red]
  simp only []
  rw [trackIdx_plain]

/-! ## The marker sequence -/

theorem markers_eq_markerSpec_bool :
    ∀ p0 p1 p2 p3 p4 p5 p6 p7 : Bool,
      markers [colourOf p0, colourOf p1, colourOf p2, colourOf p3,
          colourOf p4, colourOf p5, colourOf p6, colourOf p7] =
        [0, 1, 2, 3, 4, 5, 6, 7].map
          (markerSpec [colourOf p0, colourOf p1, colourOf p2, colourOf p3,
            colourOf p4, colourOf p5, colourOf p6, colourOf p7]) := by
  decide

theorem markers_eq_markerSpec (buf1 buf2 : List Nat) :
    markers (classify buf1 buf2) =
      (List.range 8).map (markerSpec (classify buf1 buf2)) := by
  rw [range8, classify_eq_colourOf]
  exact markers_eq_markerSpec_bool _ _ _ _ _ _ _ _

theorem markers_length (buf1 buf2 : List Nat) :
    (markers (classify buf1 buf2)).length = 8 := by
  rw [markers_eq_markerSpec]
  simp

theorem classify_mem (buf1 buf2 : List Nat) (i : Nat) (hi : i < 8) :
    (classify buf1 buf2).getD i .empty_str = .ansi_green ∨
    (classify buf1 buf2).getD i .empty_str = .ansi_red := by
  rw [classify_getD buf1 buf2 i hi]
  by_cases h : buf1.getD i 0 = buf2.getD i 0
  · left; rw [if_pos h]
  · right; rw [if_neg h]

theorem markers_getD (buf1 buf2 : List Nat) (i : Nat) (hi : i < 8) :
    (markers (classify buf1 buf2)).getD i .empty_str =
      markerSpec (classify buf1 buf2) i := by
  rw [markers_eq_markerSpec]
  rw [List.getD_eq_getElem _ _ (by simpa using hi)]
  simp

theorem classify_single_diff (buf1 buf2 : List Nat) (k : Nat)
    (hsame : ∀ i, i < 8 → i ≠ k → buf1.getD i 0 = buf2.getD i 0)
    (hdiff : buf1.getD k 0 ≠ buf2.getD k 0) :
    classify buf1 buf2 =
      (List.range 8).map (fun i => if i = k then Esc.ansi_red else Esc.ansi_green) := by
  unfold classify
  apply List.map_congr_left
  intro i hi
  have hi8 : i < 8 := List.mem_range.1 hi
  by_cases hik : i = k
  · subst hik
    rw [if_neg hdiff, if_pos rfl]
  · rw [if_pos (hsame i hi8 hik), if_neg hik]

theorem markers_single_diff (k : Nat) (hk : k < 8) :
    markers ((List.range 8).map (fun i => if i = k then Esc.ansi_red else Esc.ansi_green)) =
      (List.range 8).map (singleDiffMarker k) := by
  interval_cases k <;> decide

/-! ## Printable filtering -/

theorem printicize_length (buf : List Nat) : (printicize buf).length = buf.length := by
  unfold printicize
  rw [List.length_append, List.length_map, List.length_take, List.length_drop]
  omega

theorem printicize_getD (buf : List Nat) (i : Nat) (hi : i < 8) (hlen : i < buf.length) :
    (printicize buf).getD i 0 = printicizeByte (buf.getD i 0) := by
  have h1 : i < ((buf.take 8).map printicizeByte).length := by
    rw [List.length_map, List.length_take]
    omega
  unfold printicize
  rw [List.getD_append _ _ _ _ h1, List.getD_eq_getElem _ _ h1, List.getElem_map,
    List.getElem_take, List.getD_eq_getElem _ _ hlen]

theorem printicizeByte_idem (b : Nat) :
    printicizeByte (printicizeByte b) = printicizeByte b := by
  unfold printicizeByte
  by_cases h : b < 0x20 ∨ b > 0x7e
  · rw [if_pos h]
    rfl
  · rw [if_neg h, if_neg h]

theorem printicizeByte_eq_self_iff (b : Nat) :
    printicizeByte b = b ↔ 0x20 ≤ b ∧ b ≤ 0x7e := by
  unfold printicizeByte
  by_cases h : b < 0x20 ∨ b > 0x7e
  · rw [if_pos h]
    constructor
    · intro hb
      omega
    · intro hb
      omega
  · rw [if_neg h]
    constructor
    · intro _
      omega
    · intro _
      rfl

theorem printicize_idem (buf : List Nat) : printicize (printicize buf) = printicize buf := by
  have hmm : ∀ l : List Nat,
      (l.map printicizeByte).map printicizeByte = l.map printicizeByte := by
    intro l
    rw [List.map_map]
    apply List.map_congr_left
    intro b _
    exact printicizeByte_idem b
  by_cases hlen : buf.length ≤ 8
  · have h1 : printicize buf = buf.map printicizeByte := by
      unfold printicize
      rw [List.take_of_length_le hlen, List.drop_of_length_le hlen, List.append_nil]
    have h2 : (buf.map printicizeByte).length ≤ 8 := by
      rw [List.length_map]
      exact hlen
    rw [h1]
    unfold printicize
    rw [List.take_of_length_le h2, List.drop_of_length_le h2, List.append_nil, hmm]
  · have hl : ((buf.take 8).map printicizeByte).length = 8 := by
      rw [List.length_map, List.length_take]
      omega
    unfold printicize
    rw [List.take_left' hl, List.drop_left' hl, hmm]

theorem escs_print_same (buf1 buf2 : List Nat) (skip1 skip2 cnt : Nat) :
    escs (print_same buf1 buf2 skip1 skip2 cnt).out = [Esc.ansi_reset] := by
  simp [escs, print_same, hexToks, chrToks, range8]

/-! ## Buffers after rendering, bytes printed -/

theorem print_same_bufs (buf1 buf2 : List Nat) (skip1 skip2 cnt : Nat) :
    (print_same buf1 buf2 skip1 skip2 cnt).buf1 = printicize buf1 ∧
    (print_same buf1 buf2 skip1 skip2 cnt).buf2 = printicize buf2 := ⟨rfl, rfl⟩

theorem print_diff_bufs (buf1 buf2 : List Nat) (skip1 skip2 cnt : Nat) :
    (print_diff buf1 buf2 skip1 skip2 cnt).buf1 = printicize buf1 ∧
    (print_diff buf1 buf2 skip1 skip2 cnt).buf2 = printicize buf2 := ⟨rfl, rfl⟩

theorem byteToks_print_same (buf1 buf2 : List Nat) (skip1 skip2 cnt : Nat) :
    byteToks (print_same buf1 buf2 skip1 skip2 cnt).out =
      hexToks buf1 ++ chrToks (printicize buf1) ++ hexToks buf2 ++
        chrToks (printicize buf2) := by
  simp [byteToks, print_same, hexToks, chrToks, range8]

theorem byteToks_print_diff (buf1 buf2 : List Nat) (skip1 skip2 cnt : Nat) :
    byteToks (print_diff buf1 buf2 skip1 skip2 cnt).out =
      hexToks buf1 ++ chrToks (printicize buf1) ++ hexToks buf2 ++
        chrToks (printicize buf2) := by
  simp [byteToks, print_diff, printDiffLine, hexToks, chrToks, hexToksC, chrToksC, range8]

theorem readChunks_ignores_bufs (s : State) (x y : List Nat) :
    readChunks { s with buf1 := x, buf2 := y } = readChunks s := rfl

theorem body_ignores_bufs (c : Config) (s : State) (x y : List Nat) :
    body c { s with buf1 := x, buf2 := y } = body c s := rfl

theorem parseOpts_help (argv0 : String) :
    ∀ (pre rest : List Opt) (st : Nat × Nat),
      (∀ o ∈ pre, o = Opt.a ∨ ∃ len, o = Opt.n len) →
      parseOpts argv0 (pre ++ Opt.h :: rest) st = .error (show_help argv0 1) := by
  intro pre
  induction pre with
  | nil => intro rest st _; rfl
  | cons o os ih =>
    intro rest st h
    have hos : ∀ o' ∈ os, o' = Opt.a ∨ ∃ len, o' = Opt.n len :=
      fun o' ho' => h o' (List.mem_cons_of_mem _ ho')
    rcases h o (List.mem_cons_self _ _) with ha | ⟨len, hn⟩
    · subst ha
      exact ih rest (1, st.2) hos
    · subst hn
      exact ih rest (st.1, len) hos

/-! ## Run length and iteration count -/

theorem trailingEqual_nil : trailingEqual [] = 0 := rfl

theorem trailingEqual_append_singleton (ps : List (List Nat × List Nat))
    (p : List Nat × List Nat) :
    trailingEqual (ps ++ [p]) = if FullyEqual p then trailingEqual ps + 1 else 0 := by
  unfold trailingEqual
  rw [List.reverse_append, List.reverse_singleton, List.singleton_append, List.takeWhile_cons]
  by_cases h : FullyEqual p
  · rw [if_pos h]
    simp [h]
  · rw [if_neg h]
    simp [h]

theorem trailingEqual_le (ps : List (List Nat × List Nat)) :
    trailingEqual ps ≤ ps.length := by
  unfold trailingEqual
  have h := (List.takeWhile_sublist (l := ps.reverse)
    (fun p => decide (FullyEqual p))).length_le
  rw [List.length_reverse] at h
  exact h

theorem feedAll_append_singleton (c : Config) (s : State)
    (ps : List (List Nat × List Nat)) (p : List Nat × List Nat) :
    feedAll c s (ps ++ [p]) = feed c (feedAll c s ps) p := by
  rw [feedAll_append]
  rfl

theorem feedAll_eq_run_trailing (c : Config) (s : State) (hs : s.eq_run = 0) :
    ∀ ps : List (List Nat × List Nat), ps.length < U64 →
      (feedAll c s ps).eq_run = trailingEqual ps := by
  intro ps
  induction ps using List.reverseRecOn with
  | nil =>
    intro _
    exact hs
  | append_singleton ps p ih =>
    intro hlen
    rw [List.length_append, List.length_singleton] at hlen
    rw [feedAll_append_singleton, feed_eq_run, trailingEqual_append_singleton,
      ih (by omega)]
    by_cases h : FullyEqual p
    · rw [if_pos h, if_pos h]
      apply Nat.mod_eq_of_lt
      have := trailingEqual_le ps
      omega
    · rw [if_neg h, if_neg h]

theorem trailingEqual_after_differs (pre : List (List Nat × List Nat))
    (q : List Nat × List Nat) (hq : Differs q) :
    ∀ run : List (List Nat × List Nat), (∀ p ∈ run, FullyEqual p) →
      trailingEqual (pre ++ q :: run) = run.length := by
  intro run
  induction run using List.reverseRecOn with
  | nil =>
    intro _
    have h : pre ++ [q] = pre ++ [q] := rfl
    rw [trailingEqual_append_singleton, if_neg (not_fullyEqual_of_differs q hq)]
    rfl
  | append_singleton run p ih =>
    intro hall
    have hp : FullyEqual p := hall p (by simp)
    have hrun : ∀ r ∈ run, FullyEqual r := fun r hr => hall r (by simp [hr])
    have hsplit : pre ++ q :: (run ++ [p]) = (pre ++ q :: run) ++ [p] := by simp
    rw [hsplit, trailingEqual_append_singleton, if_pos hp, ih hrun, List.length_append,
      List.length_singleton]

theorem trailingEqual_all (ps : List (List Nat × List Nat)) :
    (∀ p ∈ ps, FullyEqual p) → trailingEqual ps = ps.length := by
  induction ps using List.reverseRecOn with
  | nil => intro _; rfl
  | append_singleton ps p ih =>
    intro hall
    have hp : FullyEqual p := hall p (by simp)
    have hps : ∀ r ∈ ps, FullyEqual r := fun r hr => hall r (by simp [hr])
    rw [trailingEqual_append_singleton, if_pos hp, ih hps, List.length_append,
      List.length_singleton]

theorem feedAll_eq_run_congr (c : Config) :
    ∀ (ps : List (List Nat × List Nat)) (s t : State), s.eq_run = t.eq_run →
      (feedAll c s ps).eq_run = (feedAll c t ps).eq_run := by
  intro ps
  induction ps with
  | nil => intro s t h; exact h
  | cons p ps ih =>
    intro s t h
    rw [feedAll_cons, feedAll_cons]
    apply ih
    rw [feed_eq_run, feed_eq_run, h]

theorem bodyN_eq_run_chunkPairs (c : Config) :
    ∀ (n : Nat) (s : State),
      (bodyN c n s).eq_run = (feedAll c s (chunkPairs n s.file1 s.file2)).eq_run := by
  intro n
  induction n with
  | zero => intro s; rfl
  | succ n ih =>
    intro s
    rw [bodyN_succ, ih (body c s), body_file1, body_file2]
    show _ = (feedAll c (feed c s (zeroFill s.file1, zeroFill s.file2))
      (chunkPairs n (s.file1.drop 8) (s.file2.drop 8))).eq_run
    apply feedAll_eq_run_congr
    rw [body_eq_run, feed_eq_run]

theorem chunkPairs_length :
    ∀ (n : Nat) (file1 file2 : List Nat), (chunkPairs n file1 file2).length = n := by
  intro n
  induction n with
  | zero => intro _ _; rfl
  | succ n ih =>
    intro file1 file2
    show (chunkPairs n (file1.drop 8) (file2.drop 8)).length + 1 = n + 1
    rw [ih]

/-- Without a length limit and without a signal the loop returns after
    `min n1 n2 / 8 + 1` bodies. -/
theorem loop_unlimited (c : Config) (sig : Nat → Nat) (file1 file2 : List Nat)
    (hmax : c.max_len = 0) (hsig : ∀ k, sig k = 0) :
    ∀ fuel, min file1.length file2.length / 8 + 1 ≤ fuel →
      loop c sig fuel (initState file1 file2) =
        some (bodyN c (min file1.length file2.length / 8 + 1) (initState file1 file2)) := by
  apply loop_eq_bodyN
  · intro j hj
    rw [loopCond_eq_true_iff]
    have hfull := bodyN_full c j (initState file1 file2)
      (by show 8 * j ≤ file1.length; omega) (by show 8 * j ≤ file2.length; omega)
    refine ⟨?_, Or.inr hmax, hsig _⟩
    rw [hfull.1]
    rfl
  · apply loopCond_of_input_end
    have hfull := bodyN_full c (min file1.length file2.length / 8) (initState file1 file2)
      (by show 8 * (min file1.length file2.length / 8) ≤ file1.length; omega)
      (by show 8 * (min file1.length file2.length / 8) ≤ file2.length; omega)
    rw [bodyN_succ_last, body_input_end, if_pos]
    rw [hfull.2.1, hfull.2.2, List.length_drop, List.length_drop]
    show file1.length - 8 * (min file1.length file2.length / 8) < 8 ∨
      file2.length - 8 * (min file1.length file2.length / 8) < 8
    omega

theorem zeroFill_drop_all (file : List Nat) (n : Nat) (h : file.length ≤ n) :
    zeroFill (file.drop n) = memset0 := by
  rw [List.drop_of_length_le h]
  rfl

theorem chrToks_printicize (buf : List Nat) (hlen : buf.length = 8) :
    chrToks (printicize buf) =
      (List.range 8).map (fun i => Tok.chr (printicizeByte (buf.getD i 0))) := by
  unfold chrToks
  apply List.map_congr_left
  intro i hi
  have hi8 : i < 8 := List.mem_range.1 hi
  rw [printicize_getD buf i hi8 (by omega)]

theorem hexDigit_table :
    ∀ d, d < 16 → hexDigit d = "0123456789abcdef".toList.getD d '0' := by
  decide

theorem render_hex (b : Nat) (hb : b < 256) :
    Tok.render (Tok.hex b) = String.mk [hexDigit (b / 16), hexDigit (b % 16)] := by
  show hex2 b = _
  unfold hex2
  rw [Nat.mod_eq_of_lt hb]

theorem render_chr (b : Nat) (hb : b < 256) :
    Tok.render (Tok.chr b) = String.mk [Char.ofNat b] := by
  show String.mk [Char.ofNat (b % 256)] = _
  rw [Nat.mod_eq_of_lt hb]

/-- For a limit `0 < max_len ≤ 2^64 - 8` the loop terminates and `8 * iters`
    stays below `max_len + 8`; with `max_len = 0` the loop test does not look
    at the byte count. -/
theorem loop_limit_bound (c : Config) (sig : Nat → Nat)
    (file1 file2 : List Nat) (hpos : 0 < c.max_len) (hle : c.max_len + 8 ≤ U64) :
    (∃ r, compareLoop c sig file1 file2 = some r) ∧
    (∀ (fuel : Nat) (r : State), loop c sig fuel (initState file1 file2) = some r →
      8 * r.iters < c.max_len + 8 ∧
      8 * r.iters ≤ 8 * ((c.max_len + 7) / 8) ∧
      (c.max_len % 8 = 0 → 8 * r.iters ≤ c.max_len)) ∧
    (∀ (c' : Config) (s : State), c'.max_len = 0 →
      loopCond c' sig s = ((s.input_end == 0) && (sig s.iters == 0))) := by
  refine ⟨compareLoop_isSome c sig file1 file2, ?_, ?_⟩
  · intro fuel r h
    have hinv := loop_limit_inv c sig hpos hle fuel (initState file1 file2) r rfl
      (by show 8 * 0 < c.max_len + 8; omega) h
    refine ⟨hinv.2, ?_, ?_⟩
    · omega
    · intro hm
      omega
  · intro c' s h0
    simp [loopCond, h0]

/-! ## Claims -/

/-- C1: in a pair of 8-byte chunks position `i` gets the match colour exactly
    when `buf1[i] = buf2[i]` and the difference colour otherwise; the driver
    appends the `print_diff` rendering (and resets the run) exactly when some
    position is classified not-equal, and otherwise treats the pair as an
    equal chunk: same-mode line, ellipsis or silence, run length incremented. -/
theorem C1_classification_selects_mode (c : Config) (s : State) (buf1 buf2 : List Nat) :
    (∀ i, i < 8 →
      (((classify buf1 buf2).getD i .empty_str = .ansi_green ↔
          buf1.getD i 0 = buf2.getD i 0) ∧
       ((classify buf1 buf2).getD i .empty_str = .ansi_red ↔
          buf1.getD i 0 ≠ buf2.getD i 0))) ∧
    ((∃ i, i < 8 ∧ (classify buf1 buf2).getD i .empty_str = .ansi_red) ↔
      (feed c s (buf1, buf2)).out =
        s.out ++ (print_diff buf1 buf2 c.skip1 c.skip2 s.cnt).out) ∧
    ((∃ i, i < 8 ∧ (classify buf1 buf2).getD i .empty_str = .ansi_red) →
      (feed c s (buf1, buf2)).eq_run = 0) ∧
    ((¬ ∃ i, i < 8 ∧ (classify buf1 buf2).getD i .empty_str = .ansi_red) →
      (feed c s (buf1, buf2)).out = s.out ++ equalOut c s.eq_run s.cnt buf1 buf2 ∧
      (feed c s (buf1, buf2)).eq_run = (s.eq_run + 1) % U64) := by
  have hcls : ∀ i, i < 8 →
      (((classify buf1 buf2).getD i .empty_str = .ansi_green ↔
          buf1.getD i 0 = buf2.getD i 0) ∧
       ((classify buf1 buf2).getD i .empty_str = .ansi_red ↔
          buf1.getD i 0 ≠ buf2.getD i 0)) := by
    intro i hi
    rw [classify_getD buf1 buf2 i hi]
    by_cases h : buf1.getD i 0 = buf2.getD i 0
    · simp [h]
    · simp [h]
  have hex : (∃ i, i < 8 ∧ (classify buf1 buf2).getD i .empty_str = .ansi_red) ↔
      ∃ i, i < 8 ∧ buf1.getD i 0 ≠ buf2.getD i 0 := by
    constructor
    · rintro ⟨i, hi, h⟩
      exact ⟨i, hi, ((hcls i hi).2).1 h⟩
    · rintro ⟨i, hi, h⟩
      exact ⟨i, hi, ((hcls i hi).2).2 h⟩
  refine ⟨hcls, ?_, ?_, ?_⟩
  · constructor
    · intro h
      exact (feed_unequal c s (buf1, buf2) (hex.1 h)).1
    · intro hout
      by_contra hno
      have hall : ∀ i, i < 8 → buf1.getD i 0 = buf2.getD i 0 := by
        intro i hi
        by_contra hne
        exact hno (hex.2 ⟨i, hi, hne⟩)
      have he := (feed_equal c s (buf1, buf2) hall).1
      rw [he] at hout
      exact equalOut_ne_print_diff c _ _ _ buf1 buf2 (List.append_cancel_left hout)
  · intro h
    exact (feed_unequal c s (buf1, buf2) (hex.1 h)).2.1
  · intro hno
    have hall : ∀ i, i < 8 → buf1.getD i 0 = buf2.getD i 0 := by
      intro i hi
      by_contra hne
      exact hno (hex.2 ⟨i, hi, hne⟩)
    have he := feed_equal c s (buf1, buf2) hall
    exact ⟨he.1, he.2.1⟩

/-- C2 (amended): with "show all" off and run length 0, a run of `N` fully
    equal chunk pairs with `2 ≤ N ≤ 2^64` writes exactly the same-mode line of
    its first pair followed by one ellipsis line; each prefix of length at
    least two has this same output, so the later pairs write nothing; an
    unequal pair after the run is appended in diff-mode and the run length is
    0 again. -/
theorem C2_equal_run_collapsed (c : Config) (s : State) (p0 p1 q : List Nat × List Nat)
    (rest : List (List Nat × List Nat))
    (hall : c.show_all = 0) (hrun : s.eq_run = 0) (hN : rest.length + 2 ≤ U64)
    (heq : ∀ p ∈ p0 :: p1 :: rest, FullyEqual p) (hq : Differs q) :
    (feed c s p0).out = s.out ++ (print_same p0.1 p0.2 c.skip1 c.skip2 s.cnt).out ∧
    (∀ k, k ≤ rest.length →
      (feedAll c s (p0 :: p1 :: rest.take k)).out =
        s.out ++ (print_same p0.1 p0.2 c.skip1 c.skip2 s.cnt).out ++ [Tok.lit "...\n"]) ∧
    (feedAll c s (p0 :: p1 :: rest)).out =
      s.out ++ (print_same p0.1 p0.2 c.skip1 c.skip2 s.cnt).out ++ [Tok.lit "...\n"] ∧
    (feed c (feedAll c s (p0 :: p1 :: rest)) q).out =
      s.out ++ (print_same p0.1 p0.2 c.skip1 c.skip2 s.cnt).out ++ [Tok.lit "...\n"] ++
        (print_diff q.1 q.2 c.skip1 c.skip2 ((s.cnt + 8 * (rest.length + 2)) % U64)).out ∧
    (feed c (feedAll c s (p0 :: p1 :: rest)) q).eq_run = 0 := by
  have hfull := feedAll_run c s p0 p1 rest hall hrun hN heq
  have hd := feed_unequal c (feedAll c s (p0 :: p1 :: rest)) q hq
  refine ⟨?_, ?_, hfull.1, ?_, hd.2.1⟩
  · rw [(feed_equal c s p0 (heq p0 (List.mem_cons_self _ _))).1]
    unfold equalOut
    simp [hrun]
  · intro k _
    have hlen : (rest.take k).length ≤ rest.length := by
      rw [List.length_take]
      exact Nat.min_le_right _ _
    refine (feedAll_run c s p0 p1 (rest.take k) hall hrun (by omega) ?_).1
    intro p hp
    apply heq
    rcases List.mem_cons.1 hp with h | h
    · rw [h]; exact List.mem_cons_self _ _
    · rcases List.mem_cons.1 h with h | h
      · rw [h]; exact List.mem_cons_of_mem _ (List.mem_cons_self _ _)
      · exact List.mem_cons_of_mem _ (List.mem_cons_of_mem _ (List.mem_of_mem_take h))
  · rw [hd.1, hfull.1, hfull.2.2]

/-- Instance of C2 on three equal pairs followed by an unequal one. -/
theorem C2_equal_run_collapsed_witness :
    (feedAll cfgDefault (initState [] []) [(chunkA, chunkA), (chunkA, chunkA), (chunkA, chunkA)]).out =
      header ++ (print_same chunkA chunkA 0 0 0).out ++ [Tok.lit "...\n"] :=
  (C2_equal_run_collapsed cfgDefault (initState [] []) (chunkA, chunkA) (chunkA, chunkA)
    (chunkA, chunkB) [(chunkA, chunkA)] rfl rfl
    (by rw [U64_eq]; decide) (by decide) (by decide)).2.2.1

/-- C2 as stated fails for a run of `2^64 + 1` equal pairs: `eq_run` has
    wrapped to 0 when the last pair arrives, which is rendered again. -/
theorem C2_counterexample :
    ¬ ((feedAll cfgDefault (initState [] [])
          (List.replicate (U64 + 1) (memset0, memset0))).out =
        (initState [] []).out ++ (print_same memset0 memset0 0 0 0).out ++
          [Tok.lit "...\n"]) := by
  have hsplit : List.replicate (U64 + 1) (memset0, memset0) =
      ((memset0, memset0) :: (memset0, memset0) ::
        List.replicate (U64 - 2) (memset0, memset0)) ++ [(memset0, memset0)] := by
    have h2 : U64 = (U64 - 2) + 1 + 1 := by rw [U64_eq]
    have h3 : ∀ n : Nat, List.replicate (n + 1 + 1) (memset0, memset0) =
        (memset0, memset0) :: (memset0, memset0) :: List.replicate n (memset0, memset0) :=
      fun _ => rfl
    rw [List.replicate_succ', ← h3 (U64 - 2), ← h2]
  have hrun := feedAll_run cfgDefault (initState [] []) (memset0, memset0) (memset0, memset0)
    (List.replicate (U64 - 2) (memset0, memset0)) rfl rfl
    (by rw [List.length_replicate, U64_eq])
    (by
      intro p hp
      have : p = (memset0, memset0) := by
        rcases List.mem_cons.1 hp with h | h
        · exact h
        · rcases List.mem_cons.1 h with h | h
          · exact h
          · exact List.eq_of_mem_replicate h
      rw [this]
      intro i _
      rfl)
  rw [hsplit, feedAll_append]
  intro hout
  have hlast := feed_equal cfgDefault
    (feedAll cfgDefault (initState [] []) ((memset0, memset0) :: (memset0, memset0) ::
        List.replicate (U64 - 2) (memset0, memset0))) (memset0, memset0) (fun i _ => rfl)
  have he : (feedAll cfgDefault (initState [] []) ((memset0, memset0) :: (memset0, memset0) ::
        List.replicate (U64 - 2) (memset0, memset0))).eq_run = 0 := by
    rw [hrun.2.1, List.length_replicate, U64_eq]
  have hfeed : feedAll cfgDefault (feedAll cfgDefault (initState [] [])
      ((memset0, memset0) :: (memset0, memset0) ::
        List.replicate (U64 - 2) (memset0, memset0))) [(memset0, memset0)] =
      feed cfgDefault (feedAll cfgDefault (initState [] [])
      ((memset0, memset0) :: (memset0, memset0) ::
        List.replicate (U64 - 2) (memset0, memset0))) (memset0, memset0) := rfl
  rw [hfeed, hlast.1, hrun.1, he] at hout
  have hnil := List.append_right_eq_self.1 hout
  have hhd := print_same_head memset0 memset0 cfgDefault.skip1 cfgDefault.skip2
    (feedAll cfgDefault (initState [] []) ((memset0, memset0) :: (memset0, memset0) ::
        List.replicate (U64 - 2) (memset0, memset0))).cnt
  unfold equalOut at hnil
  rw [if_pos (Or.inl rfl)] at hnil
  rw [hnil] at hhd
  exact absurd hhd (by decide)

/-- C3: with "show all" on, whatever the state, a fully equal chunk pair is
    appended as its own same-mode line; the output for a whole sequence of
    pairs is the concatenation of the individual renderings (same-mode for
    equal pairs, diff-mode for the others), and the ellipsis line is not
    part of it. -/
theorem C3_show_all_renders_every_pair (c : Config) (s : State)
    (ps : List (List Nat × List Nat)) (hall : c.show_all = 1) :
    (∀ (t : State) (p : List Nat × List Nat), FullyEqual p →
      (feed c t p).out = t.out ++ (print_same p.1 p.2 c.skip1 c.skip2 t.cnt).out) ∧
    (feedAll c s ps).out = s.out ++ renderEach c s.cnt ps ∧
    Tok.lit "...\n" ∉ renderEach c s.cnt ps ∧
    (Tok.lit "...\n" ∉ s.out → Tok.lit "...\n" ∉ (feedAll c s ps).out) := by
  refine ⟨?_, feedAll_show_all c hall ps s, ellipsis_not_mem_renderEach c ps s.cnt, ?_⟩
  · intro t p hp
    rw [(feed_equal c t p hp).1]
    unfold equalOut
    rw [if_pos (Or.inr hall)]
  · intro hs
    rw [feedAll_show_all c hall ps s, List.mem_append]
    rintro (h | h)
    · exact hs h
    · exact ellipsis_not_mem_renderEach c ps s.cnt h

/-- Instance of C3 on three equal pairs. -/
theorem C3_show_all_renders_every_pair_witness :
    (feedAll cfgShowAll (initState [] [])
        [(chunkA, chunkA), (chunkA, chunkA), (chunkA, chunkA)]).out =
      header ++ renderEach cfgShowAll 0 [(chunkA, chunkA), (chunkA, chunkA), (chunkA, chunkA)] :=
  (C3_show_all_renders_every_pair cfgShowAll (initState [] [])
    [(chunkA, chunkA), (chunkA, chunkA), (chunkA, chunkA)] rfl).2.1

/-- C4: after `N` loop bodies the counter is `8 * N` (mod `2^64`), and the
    body executed next, i.e. iteration `N`, prints as offsets, whenever it
    renders a line, `skip1 + 8 * N` on the left and `skip2 + 8 * N` on the
    right in 64-bit unsigned arithmetic, in same-mode as in diff-mode; with
    `skip1 = 100`, `skip2 = 200` and `cnt = 16` these are 116 and 216. -/
theorem C4_offsets_per_stream (c : Config) (file1 file2 : List Nat) (N : Nat) :
    (bodyN c N (initState file1 file2)).iters = N ∧
    (bodyN c N (initState file1 file2)).cnt = (8 * N) % U64 ∧
    (∀ buf1 buf2 : List Nat,
      addrs (print_same buf1 buf2 c.skip1 c.skip2 (bodyN c N (initState file1 file2)).cnt).out =
        [(c.skip1 + 8 * N) % U64, (c.skip2 + 8 * N) % U64] ∧
      addrs (print_diff buf1 buf2 c.skip1 c.skip2 (bodyN c N (initState file1 file2)).cnt).out =
        [(c.skip1 + 8 * N) % U64, (c.skip2 + 8 * N) % U64]) ∧
    (∃ new : List Tok,
      (body c (bodyN c N (initState file1 file2))).out =
        (bodyN c N (initState file1 file2)).out ++ new ∧
      (addrs new = [] ∨
        addrs new = [(c.skip1 + 8 * N) % U64, (c.skip2 + 8 * N) % U64])) ∧
    (∀ buf1 buf2 : List Nat,
      addrs (print_same buf1 buf2 100 200 16).out = [116, 216] ∧
      addrs (print_diff buf1 buf2 100 200 16).out = [116, 216]) := by
  have hc : (bodyN c N (initState file1 file2)).cnt = (8 * N) % U64 := by
    rw [bodyN_cnt c N (initState file1 file2) U64_pos]
    show (0 + 8 * N) % U64 = _
    rw [Nat.zero_add]
  have hadd : ∀ k : Nat, (k + (8 * N) % U64) % U64 = (k + 8 * N) % U64 := by
    intro k
    rw [Nat.add_mod_mod]
  refine ⟨?_, hc, ?_, ?_, ?_⟩
  · rw [bodyN_iters]
    exact Nat.zero_add N
  · intro buf1 buf2
    rw [addrs_print_same, addrs_print_diff, hc, hadd, hadd]
    exact ⟨rfl, rfl⟩
  · refine ⟨_, body_out c _, ?_⟩
    have h := addrs_stepOut c (bodyN c N (initState file1 file2)).eq_run
      (bodyN c N (initState file1 file2)).cnt
      (readChunks (bodyN c N (initState file1 file2))).buf1
      (readChunks (bodyN c N (initState file1 file2))).buf2
    rcases h with h | h
    · exact Or.inl h
    · refine Or.inr ?_
      rw [h, hc, hadd, hadd]
  · intro buf1 buf2
    rw [addrs_print_same, addrs_print_diff, U64_eq]
    exact ⟨rfl, rfl⟩

/-- C5: in an iteration where one of the streams delivers fewer than 8 bytes
    the zero-filled chunk pair still goes through the comparison and the
    run collapser / renderer, and afterwards the loop test fails for every
    `max_len` and every signal state, so no further body runs; with a 7-byte
    `file1` and a 16-byte `file2` exactly one chunk pair is processed. -/
theorem C5_short_read_ends_loop (c : Config) (sig : Nat → Nat) (s : State)
    (hshort : s.file1.length < 8 ∨ s.file2.length < 8) :
    body c s = feed c (readChunks s) (zeroFill s.file1, zeroFill s.file2) ∧
    (body c s).out =
      s.out ++ stepOut c s.eq_run s.cnt (zeroFill s.file1) (zeroFill s.file2) ∧
    (body c s).iters = s.iters + 1 ∧
    (∀ (c' : Config) (sig' : Nat → Nat), loopCond c' sig' (body c s) = false) ∧
    (∀ (c' : Config) (sig' : Nat → Nat) (fuel : Nat),
      loop c' sig' fuel (body c s) = some (body c s)) ∧
    (loopCond c sig s = true → ∀ fuel, loop c sig (fuel + 1) s = some (body c s)) ∧
    (∀ file1 file2 : List Nat, file1.length = 7 → file2.length = 16 → sig 0 = 0 →
      compareLoop c sig file1 file2 = some (body c (initState file1 file2)) ∧
      (body c (initState file1 file2)).iters = 1) := by
  have hend : ∀ t : State, t.file1.length < 8 ∨ t.file2.length < 8 →
      ∀ (c' : Config) (sig' : Nat → Nat), loopCond c' sig' (body c t) = false := by
    intro t ht c' sig'
    apply loopCond_of_input_end
    rw [body_input_end, if_pos ht]
  refine ⟨?_, body_out_zeroFill c s, body_iters c s, hend s hshort, ?_, ?_, ?_⟩
  · rw [body_eq_feed, readChunks_buf1, readChunks_buf2]
  · intro c' sig' fuel
    exact loop_of_not_cond c' sig' _ (hend s hshort c' sig') fuel
  · intro hc fuel
    rw [loop_succ_of_cond c sig s hc]
    exact loop_of_not_cond c sig _ (hend s hshort c sig) fuel
  · intro file1 file2 h1 h2 hsig
    have ht : (initState file1 file2).file1.length < 8 ∨
        (initState file1 file2).file2.length < 8 := by
      left
      show file1.length < 8
      omega
    refine ⟨?_, ?_⟩
    · unfold compareLoop
      rw [loop_succ_of_cond c sig _ (loopCond_initState c sig file1 file2 hsig)]
      exact loop_of_not_cond c sig _ (hend _ ht c sig) _
    · rw [body_iters]
      rfl

/-- Instance of C5: a 7-byte and a 16-byte stream, no signal. -/
theorem C5_short_read_ends_loop_witness :
    compareLoop cfgDefault noSigint file7 file16 =
        some (body cfgDefault (initState file7 file16)) ∧
      (body cfgDefault (initState file7 file16)).iters = 1 :=
  (C5_short_read_ends_loop cfgDefault noSigint (initState file7 file16)
    (Or.inl (by decide))).2.2.2.2.2.2 file7 file16 rfl rfl rfl

/-- C6: a read that obtains `k < 8` bytes leaves in the buffer those `k` bytes
    in order followed by `8 - k` zero bytes, a read that obtains 8 bytes
    leaves exactly those bytes; `input_end` becomes 1 when one of the two
    reads is short and keeps its value when both obtain 8 bytes; the buffers
    so filled are the ones compared and rendered. -/
theorem C6_short_read_zero_filled (c : Config) (s : State) :
    (∀ file : List Nat, file.length < 8 →
      (fread8 memset0 file).1 = file ++ List.replicate (8 - file.length) 0 ∧
      (fread8 memset0 file).2.1 = file.length) ∧
    (∀ file : List Nat, 8 ≤ file.length →
      (fread8 memset0 file).1 = file.take 8 ∧ (fread8 memset0 file).2.1 = 8) ∧
    (readChunks s).buf1 = (fread8 memset0 s.file1).1 ∧
    (readChunks s).buf2 = (fread8 memset0 s.file2).1 ∧
    (readChunks s).input_end =
      (if (fread8 memset0 s.file1).2.1 < 8 ∨ (fread8 memset0 s.file2).2.1 < 8 then 1
       else s.input_end) ∧
    body c s = feed c (readChunks s) ((readChunks s).buf1, (readChunks s).buf2) ∧
    (body c s).input_end = (readChunks s).input_end ∧
    (body c s).out =
      s.out ++ stepOut c s.eq_run s.cnt (readChunks s).buf1 (readChunks s).buf2 := by
  refine ⟨?_, ?_, rfl, rfl, ?_, body_eq_feed c s, ?_, body_out c s⟩
  · intro file h
    rw [fread8_memset0]
    exact ⟨zeroFill_of_short file h, by show min 8 file.length = file.length; omega⟩
  · intro file h
    rw [fread8_memset0]
    exact ⟨zeroFill_of_full file h, by show min 8 file.length = 8; omega⟩
  · rw [readChunks_input_end, fread8_memset0, fread8_memset0]
    show _ = if min 8 s.file1.length < 8 ∨ min 8 s.file2.length < 8 then 1 else s.input_end
    by_cases h : s.file1.length < 8 ∨ s.file2.length < 8
    · have h' : min 8 s.file1.length < 8 ∨ min 8 s.file2.length < 8 := by omega
      rw [if_pos h, if_pos h']
    · have h' : ¬ (min 8 s.file1.length < 8 ∨ min 8 s.file2.length < 8) := by omega
      rw [if_neg h, if_neg h']
  · rw [body_eq_feed, feed_input_end]

/-- C7, the code on `hexdiff -n 5` with the 8-byte inputs `chunkA` and
    `chunkA6`, which agree in their first five bytes and differ at index 6:
    the loop test `cnt < max_len` holds once, the body compares and renders
    the whole 8-byte chunk, so 8 bytes are compared although the limit is 5,
    and the line printed is the diff-mode line with the difference colour at
    position 6, beyond the limit. -/
theorem C7_limit_overshoots_at_n5 :
    chunkA.take 5 = chunkA6.take 5 ∧
    ∃ r, compareLoop cfgLimit5 noSigint chunkA chunkA6 = some r ∧
      r.iters = 1 ∧
      ¬ (8 * r.iters ≤ cfgLimit5.max_len) ∧
      r.out = header ++ (print_diff chunkA chunkA6 0 0 0).out ∧
      (classify chunkA chunkA6).getD 6 .empty_str = .ansi_red :=
  ⟨by decide, body cfgLimit5 (initState chunkA chunkA6), rfl, rfl, by decide, rfl,
    by decide⟩

/-- C8 (amended): for a limit `L > 0`, two streams of at least `L` bytes each
    and no interrupt, where `L ≤ 2^64 - 8` or one of the streams holds fewer
    than `2^64` bytes, the loop returns after exactly `ceil(L / 8)` bodies;
    with `L = 8` and two identical inputs of at least 8 bytes the output
    after the header is the one same-mode line of the first chunk. -/
theorem C8_limit_iteration_count (c : Config) (sig : Nat → Nat) (file1 file2 : List Nat)
    (hpos : 0 < c.max_len)
    (hle : c.max_len + 8 ≤ U64 ∨ file1.length < U64 ∨ file2.length < U64)
    (h1 : c.max_len ≤ file1.length) (h2 : c.max_len ≤ file2.length)
    (hsig : ∀ k, sig k = 0) :
    compareLoop c sig file1 file2 =
      some (bodyN c ((c.max_len + 7) / 8) (initState file1 file2)) ∧
    (∀ fuel, (c.max_len + 7) / 8 ≤ fuel →
      loop c sig fuel (initState file1 file2) =
        some (bodyN c ((c.max_len + 7) / 8) (initState file1 file2))) ∧
    (bodyN c ((c.max_len + 7) / 8) (initState file1 file2)).iters = (c.max_len + 7) / 8 ∧
    (c.max_len = 8 → file1 = file2 →
      (bodyN c ((c.max_len + 7) / 8) (initState file1 file2)).out =
        header ++ (print_same (file1.take 8) (file1.take 8) c.skip1 c.skip2 0).out) := by
  have hloop := loop_with_limit_general c sig file1 file2 hpos hle h1 h2 hsig
  refine ⟨?_, hloop, ?_, ?_⟩
  · unfold compareLoop
    apply hloop
    omega
  · rw [bodyN_iters]
    exact Nat.zero_add _
  · intro h8 hsame
    subst hsame
    rw [h8]
    show (body c (initState file1 file1)).out = _
    rw [body_out_zeroFill]
    have hz : zeroFill (initState file1 file1).file1 = file1.take 8 :=
      zeroFill_of_full file1 (by omega)
    have hz2 : zeroFill (initState file1 file1).file2 = file1.take 8 :=
      zeroFill_of_full file1 (by omega)
    rw [hz, hz2]
    have he : (initState file1 file1).eq_run = 0 ∨ c.show_all = 1 := Or.inl rfl
    unfold stepOut equalOut
    rw [if_pos (fullyEqual_self _), if_pos he]
    rfl

/-- Instance of C8: limit 8 on two identical 16-byte streams. -/
theorem C8_limit_iteration_count_witness :
    compareLoop cfgLimit8 noSigint file16 file16 =
      some (bodyN cfgLimit8 1 (initState file16 file16)) :=
  (C8_limit_iteration_count cfgLimit8 noSigint file16 file16 (by decide)
    (Or.inl (by rw [U64_eq]; decide)) (by decide) (by decide) (fun _ => rfl)).1

/-- C8 as stated fails for the limit `L = 2^64 - 1` on two streams of
    `2^64 + 8` zero bytes: `cnt` wraps to 0 instead of reaching `L`, and the
    loop runs `2^61 + 2` bodies, not `ceil(L / 8) = 2^61`. -/
theorem C8_counterexample :
    0 < cfgLimitMax.max_len ∧
    cfgLimitMax.max_len ≤ (List.replicate (U64 + 8) 0).length ∧
    ∃ r, compareLoop cfgLimitMax noSigint (List.replicate (U64 + 8) 0)
          (List.replicate (U64 + 8) 0) = some r ∧
      r.iters = (cfgLimitMax.max_len + 7) / 8 + 2 ∧
      r.iters ≠ (cfgLimitMax.max_len + 7) / 8 := by
  have hm : cfgLimitMax.max_len = U64 - 1 := rfl
  have hlen : (List.replicate (U64 + 8) 0).length = U64 + 8 := List.length_replicate _ _
  have hk : (cfgLimitMax.max_len + 7) / 8 = U64 / 8 := by
    rw [hm, U64_eq]
  refine ⟨?_, ?_, _, loop_limit_wraps _ _ hlen hlen, ?_, ?_⟩
  · rw [hm, U64_eq]
    norm_num
  · rw [hm, hlen, U64_eq]
    norm_num
  · rw [bodyN_iters, hk]
    exact Nat.zero_add _
  · rw [bodyN_iters, hk]
    show 0 + (U64 / 8 + 2) ≠ U64 / 8
    omega

/-- C9 (amended): for two 16-byte inputs that differ only at byte index 9,
    with default flags, both skips 0, no length limit and no interrupt, the
    loop runs three bodies and the output after the header consists of
    exactly three rendered lines: the same-mode line of bytes 0-7, the
    diff-mode line of bytes 8-15 in which only position 1 has the difference
    colour, and the same-mode line of the all-zero chunk pair at offset 16
    read when both inputs are exhausted. -/
theorem C9_two_chunks_then_zero_chunk (sig : Nat → Nat) (file1 file2 : List Nat)
    (hl1 : file1.length = 16) (hl2 : file2.length = 16)
    (hsame : ∀ i, i < 16 → i ≠ 9 → file1.getD i 0 = file2.getD i 0)
    (hdiff : file1.getD 9 0 ≠ file2.getD 9 0) (hsig : ∀ k, sig k = 0) :
    ∃ r, compareLoop cfgDefault sig file1 file2 = some r ∧
      r.iters = 3 ∧
      r.out = header ++ (print_same (file1.take 8) (file2.take 8) 0 0 0).out ++
        (print_diff (file1.drop 8) (file2.drop 8) 0 0 8).out ++
        (print_same memset0 memset0 0 0 16).out ∧
      classify (file1.drop 8) (file2.drop 8) =
        [.ansi_green, .ansi_red, .ansi_green, .ansi_green,
         .ansi_green, .ansi_green, .ansi_green, .ansi_green] := by
  have h := loop_two_chunks sig file1 file2 hl1 hl2 hsame hdiff hsig
  refine ⟨_, h.1, ?_, h.2, ?_⟩
  · rw [bodyN_iters]
    rfl
  · have hg : ∀ i, i < 8 → i ≠ 1 →
        (file1.drop 8).getD i 0 = (file2.drop 8).getD i 0 := by
      intro i hi hne
      rw [getD_drop8, getD_drop8]
      exact hsame (8 + i) (by omega) (by omega)
    have hr : ¬ (file1.drop 8).getD 1 0 = (file2.drop 8).getD 1 0 := by
      rw [getD_drop8, getD_drop8]
      exact hdiff
    unfold classify
    rw [range8]
    simp only [List.map_cons, List.map_nil]
    rw [if_pos (hg 0 (by omega) (by omega)), if_neg hr, if_pos (hg 2 (by omega) (by omega)),
      if_pos (hg 3 (by omega) (by omega)), if_pos (hg 4 (by omega) (by omega)),
      if_pos (hg 5 (by omega) (by omega)), if_pos (hg 6 (by omega) (by omega)),
      if_pos (hg 7 (by omega) (by omega))]

/-- Instance of C9 on `file16` and `file16b`. -/
theorem C9_two_chunks_then_zero_chunk_witness :
    ∃ r, compareLoop cfgDefault noSigint file16 file16b = some r ∧
      r.iters = 3 ∧
      r.out = header ++ (print_same (file16.take 8) (file16b.take 8) 0 0 0).out ++
        (print_diff (file16.drop 8) (file16b.drop 8) 0 0 8).out ++
        (print_same memset0 memset0 0 0 16).out ∧
      classify (file16.drop 8) (file16b.drop 8) =
        [.ansi_green, .ansi_red, .ansi_green, .ansi_green,
         .ansi_green, .ansi_green, .ansi_green, .ansi_green] :=
  C9_two_chunks_then_zero_chunk noSigint file16 file16b rfl rfl (by decide) (by decide)
    (fun _ => rfl)

/-- C9 as stated fails on `file16` and `file16b`, which differ only at index
    9: the output after the header is not the two lines of the claim, a third
    line (the zero chunk at offset 16) follows them. -/
theorem C9_counterexample :
    ∃ r, compareLoop cfgDefault noSigint file16 file16b = some r ∧
      r.out ≠ header ++ (print_same (file16.take 8) (file16b.take 8) 0 0 0).out ++
        (print_diff (file16.drop 8) (file16b.drop 8) 0 0 8).out ∧
      r.out.count (Tok.lit "\n") = 3 :=
  ⟨bodyN cfgDefault 3 (initState file16 file16b), rfl, by decide, rfl⟩

/-- C10: along a line printed by `print_diff`, whatever colour was in effect
    before it, the colour in effect when byte `i` is printed is, in each of
    the four sections (left hex, left ASCII, right hex, right ASCII), the
    match colour if `buf1[i] = buf2[i]` and the difference colour otherwise;
    the line printed with the markers before elimination shows the same
    colours, so the elimination changes the colour of no byte. -/
theorem C10_colour_in_effect_matches_classification (buf1 buf2 : List Nat)
    (skip1 skip2 cnt : Nat) (cur : Esc) :
    byteColours cur (print_diff buf1 buf2 skip1 skip2 cnt).out =
      classify buf1 buf2 ++
        (classify buf1 buf2 ++ (classify buf1 buf2 ++ classify buf1 buf2)) ∧
    (∀ sec i, sec < 4 → i < 8 →
      (byteColours cur (print_diff buf1 buf2 skip1 skip2 cnt).out).getD (8 * sec + i)
          .empty_str =
        if buf1.getD i 0 = buf2.getD i 0 then Esc.ansi_green else Esc.ansi_red) ∧
    byteColours cur (print_diff buf1 buf2 skip1 skip2 cnt).out =
      byteColours cur
        (printDiffLine (classify buf1 buf2) buf1 buf2 skip1 skip2 cnt).out := by
  refine ⟨byteColours_print_diff buf1 buf2 skip1 skip2 cnt cur, ?_, ?_⟩
  · intro sec i hsec hi
    rw [byteColours_print_diff,
      getD_four_sections _ (classify_length buf1 buf2) sec i hsec hi,
      classify_getD buf1 buf2 i hi]
  · rw [byteColours_print_diff, byteColours_plain_line]

/-- C11: for the colours `c_0..c_7` of a chunk pair, the markers computed by
    `print_diff` are: at a position `i` from 1 to 7 the colour `c_i` exactly
    when `c_i` differs from `c_(i-1)` and the empty string otherwise; at
    position 0 the empty string exactly when `c_0` and `c_7` are both the
    difference colour, and `c_0` otherwise. -/
theorem C11_marker_sequence (buf1 buf2 : List Nat) :
    markers (classify buf1 buf2) =
      (List.range 8).map (markerSpec (classify buf1 buf2)) ∧
    (∀ i, 1 ≤ i → i < 8 →
      (((markers (classify buf1 buf2)).getD i .empty_str =
            (classify buf1 buf2).getD i .empty_str ↔
          (classify buf1 buf2).getD i .empty_str ≠
            (classify buf1 buf2).getD (i - 1) .empty_str) ∧
       ((markers (classify buf1 buf2)).getD i .empty_str = .empty_str ↔
          (classify buf1 buf2).getD i .empty_str =
            (classify buf1 buf2).getD (i - 1) .empty_str))) ∧
    ((markers (classify buf1 buf2)).getD 0 .empty_str = .empty_str ↔
      ((classify buf1 buf2).getD 0 .empty_str = .ansi_red ∧
       (classify buf1 buf2).getD 7 .empty_str = .ansi_red)) ∧
    (¬ ((classify buf1 buf2).getD 0 .empty_str = .ansi_red ∧
        (classify buf1 buf2).getD 7 .empty_str = .ansi_red) →
      (markers (classify buf1 buf2)).getD 0 .empty_str =
        (classify buf1 buf2).getD 0 .empty_str) := by
  have hne : ∀ i, i < 8 → (classify buf1 buf2).getD i .empty_str ≠ .empty_str := by
    intro i hi h
    rcases classify_mem buf1 buf2 i hi with hg | hr
    · rw [hg] at h; exact absurd h (by decide)
    · rw [hr] at h; exact absurd h (by decide)
  refine ⟨markers_eq_markerSpec buf1 buf2, ?_, ?_, ?_⟩
  · intro i h1 hi
    have hi0 : ¬ i = 0 := by omega
    rw [markers_getD buf1 buf2 i hi]
    unfold markerSpec
    rw [if_neg hi0]
    by_cases he : (classify buf1 buf2).getD i .empty_str =
        (classify buf1 buf2).getD (i - 1) .empty_str
    · rw [if_pos he]
      refine ⟨⟨fun h => absurd h.symm (hne i hi), fun h => absurd he h⟩, ?_⟩
      exact ⟨fun _ => he, fun _ => rfl⟩
    · rw [if_neg he]
      refine ⟨⟨fun _ => he, fun _ => rfl⟩, ?_⟩
      exact ⟨fun h => absurd h (hne i hi), fun h => absurd h he⟩
  · rw [markers_getD buf1 buf2 0 (by omega)]
    unfold markerSpec
    rw [if_pos rfl]
    by_cases hr : (classify buf1 buf2).getD 0 .empty_str = .ansi_red ∧
        (classify buf1 buf2).getD 7 .empty_str = .ansi_red
    · rw [if_pos hr]
      exact ⟨fun _ => hr, fun _ => rfl⟩
    · rw [if_neg hr]
      exact ⟨fun h => absurd h (hne 0 (by omega)), fun h => absurd h hr⟩
  · intro hr
    rw [markers_getD buf1 buf2 0 (by omega)]
    unfold markerSpec
    rw [if_pos rfl, if_neg hr]

/-- C12 (amended): for a pair that differs only at position `k`, the
    classification is not-equal at `k` and equal elsewhere, and the markers
    are the difference colour at `k`, the match colour at `k + 1` when
    `k < 7`, the match colour at position 0 when `k ≥ 1` (the offset before
    it is printed in the difference colour), and empty at every other
    position; for `k = 0` these are just the two markers at 0 and 1. -/
theorem C12_single_difference_markers (buf1 buf2 : List Nat) (k : Nat) (hk : k < 8)
    (hsame : ∀ i, i < 8 → i ≠ k → buf1.getD i 0 = buf2.getD i 0)
    (hdiff : buf1.getD k 0 ≠ buf2.getD k 0) :
    (∀ i, i < 8 →
      (classify buf1 buf2).getD i .empty_str =
        if i = k then Esc.ansi_red else Esc.ansi_green) ∧
    markers (classify buf1 buf2) = (List.range 8).map (singleDiffMarker k) ∧
    (∀ i, i < 8 →
      (markers (classify buf1 buf2)).getD i .empty_str = singleDiffMarker k i) ∧
    (k = 0 → markers (classify buf1 buf2) =
      [.ansi_red, .ansi_green, .empty_str, .empty_str,
       .empty_str, .empty_str, .empty_str, .empty_str]) := by
  have hm : markers (classify buf1 buf2) = (List.range 8).map (singleDiffMarker k) := by
    rw [classify_single_diff buf1 buf2 k hsame hdiff, markers_single_diff k hk]
  refine ⟨?_, hm, ?_, ?_⟩
  · intro i hi
    rw [classify_getD buf1 buf2 i hi]
    by_cases hik : i = k
    · subst hik
      rw [if_neg hdiff, if_pos rfl]
    · rw [if_pos (hsame i hi hik), if_neg hik]
  · intro i hi
    rw [hm, List.getD_eq_getElem _ _ (by simpa using hi)]
    simp
  · intro h0
    subst h0
    rw [hm]
    decide

/-- Instance of C12 on `chunkA` and `chunkB`, which differ only at position 1. -/
theorem C12_single_difference_markers_witness :
    markers (classify chunkA chunkB) = (List.range 8).map (singleDiffMarker 1) :=
  (C12_single_difference_markers chunkA chunkB 1 (by decide) (by decide) (by decide)).2.1

/-- C12 as stated fails on `chunkA` and `chunkB`, which differ only at
    position 1: position 0 borders no transition, yet its marker is the match
    colour, not the empty string. -/
theorem C12_counterexample :
    (∀ i, i < 8 → i ≠ 1 → chunkA.getD i 0 = chunkB.getD i 0) ∧
    chunkA.getD 1 0 ≠ chunkB.getD 1 0 ∧
    (markers (classify chunkA chunkB)).getD 0 .empty_str = .ansi_green ∧
    (markers (classify chunkA chunkB)).getD 0 .empty_str ≠ .empty_str := by
  decide

/-- C13: a chunk compared with itself has the match colour at every position,
    the driver appends for it the output of the equal branch (the same-mode
    line, the ellipsis or nothing) and never the `print_diff` rendering, and
    the same-mode line starts with the reset sequence, which is its only
    escape sequence: it holds no match-colour and no difference-colour
    marker. -/
theorem C13_identical_chunks_plain (c : Config) (s : State) (A : List Nat)
    (skip1 skip2 cnt : Nat) :
    (∀ i, i < 8 → (classify A A).getD i .empty_str = .ansi_green) ∧
    (feed c s (A, A)).out = s.out ++ equalOut c s.eq_run s.cnt A A ∧
    (equalOut c s.eq_run s.cnt A A = (print_same A A c.skip1 c.skip2 s.cnt).out ∨
      equalOut c s.eq_run s.cnt A A = [Tok.lit "...\n"] ∨
      equalOut c s.eq_run s.cnt A A = []) ∧
    (feed c s (A, A)).out ≠ s.out ++ (print_diff A A c.skip1 c.skip2 s.cnt).out ∧
    (print_same A A skip1 skip2 cnt).out.head? = some (Tok.esc .ansi_reset) ∧
    escs (print_same A A skip1 skip2 cnt).out = [Esc.ansi_reset] ∧
    Tok.esc .ansi_green ∉ (print_same A A skip1 skip2 cnt).out ∧
    Tok.esc .ansi_red ∉ (print_same A A skip1 skip2 cnt).out := by
  have hout := (feed_equal c s (A, A) (fullyEqual_self A)).1
  refine ⟨?_, hout, ?_, ?_, rfl, escs_print_same A A skip1 skip2 cnt, ?_, ?_⟩
  · intro i hi
    rw [classify_getD A A i hi, if_pos rfl]
  · unfold equalOut
    split
    · exact Or.inl rfl
    · split
      · exact Or.inr (Or.inl rfl)
      · exact Or.inr (Or.inr rfl)
  · rw [hout]
    intro h
    exact equalOut_ne_print_diff c _ _ _ A A (List.append_cancel_left h)
  · simp [print_same, hexToks, chrToks]
  · simp [print_same, hexToks, chrToks]

/-- C14: on an 8-byte buffer `printicize` keeps the length, leaves byte `i`
    unchanged exactly when its value lies in `0x20..0x7e`, and puts `0x2e`
    (the character `.`) at every other position; each position is rewritten
    from its own byte, so the order is unchanged. -/
theorem C14_printicize_range (buf : List Nat) (hlen : buf.length = 8) :
    (printicize buf).length = 8 ∧
    (∀ i, i < 8 →
      (printicize buf).getD i 0 =
        if 0x20 ≤ buf.getD i 0 ∧ buf.getD i 0 ≤ 0x7e then buf.getD i 0 else 0x2e) ∧
    (∀ i, i < 8 →
      ((printicize buf).getD i 0 = buf.getD i 0 ↔
        0x20 ≤ buf.getD i 0 ∧ buf.getD i 0 ≤ 0x7e)) := by
  refine ⟨by rw [printicize_length, hlen], ?_, ?_⟩
  · intro i hi
    rw [printicize_getD buf i hi (by omega)]
    unfold printicizeByte
    by_cases h : buf.getD i 0 < 0x20 ∨ buf.getD i 0 > 0x7e
    · rw [if_pos h, if_neg (by omega)]
    · rw [if_neg h, if_pos (by omega)]
  · intro i hi
    rw [printicize_getD buf i hi (by omega)]
    exact printicizeByte_eq_self_iff _

/-- Instance of C14 on `chunkMixed`. -/
theorem C14_printicize_range_witness :
    (printicize chunkMixed).length = 8 :=
  (C14_printicize_range chunkMixed (by decide)).1

/-- C15: printable filtering is idempotent, `printicize (printicize b)` is
    `printicize b` for every buffer `b`, in particular for every 8-byte
    chunk. -/
theorem C15_printicize_idempotent (b : List Nat) :
    printicize (printicize b) = printicize b ∧
    (∀ x : Nat, printicizeByte (printicizeByte x) = printicizeByte x) :=
  ⟨printicize_idem b, printicizeByte_idem⟩

/-- C16 (amended): the renderers filter the chunks in place: after
    `print_same` or `print_diff` returns, each of the two buffers holds the
    `printicize` form of its bytes; the hex dump of a side is printed before
    that side is filtered and shows the original bytes; the next loop body
    clears and refills both buffers without reading what they hold. -/
theorem C16_rendering_filters_in_place (c : Config) (s : State) (buf1 buf2 : List Nat)
    (skip1 skip2 cnt : Nat) :
    (print_same buf1 buf2 skip1 skip2 cnt).buf1 = printicize buf1 ∧
    (print_same buf1 buf2 skip1 skip2 cnt).buf2 = printicize buf2 ∧
    (print_diff buf1 buf2 skip1 skip2 cnt).buf1 = printicize buf1 ∧
    (print_diff buf1 buf2 skip1 skip2 cnt).buf2 = printicize buf2 ∧
    byteToks (print_same buf1 buf2 skip1 skip2 cnt).out =
      hexToks buf1 ++ chrToks (printicize buf1) ++ hexToks buf2 ++
        chrToks (printicize buf2) ∧
    byteToks (print_diff buf1 buf2 skip1 skip2 cnt).out =
      hexToks buf1 ++ chrToks (printicize buf1) ++ hexToks buf2 ++
        chrToks (printicize buf2) ∧
    body c { s with buf1 := buf1, buf2 := buf2 } = body c s :=
  ⟨rfl, rfl, rfl, rfl, byteToks_print_same buf1 buf2 skip1 skip2 cnt,
    byteToks_print_diff buf1 buf2 skip1 skip2 cnt, rfl⟩

/-- C16 as stated fails on the all-zero chunk: after `print_same` the buffer
    holds eight bytes `0x2e`, and after `print_diff` on `chunkMixed` against
    the all-zero chunk both buffers have changed as well. -/
theorem C16_counterexample :
    (print_same memset0 memset0 0 0 0).buf1 = [0x2e, 0x2e, 0x2e, 0x2e, 0x2e, 0x2e, 0x2e, 0x2e] ∧
    (print_same memset0 memset0 0 0 0).buf1 ≠ memset0 ∧
    (print_same memset0 memset0 0 0 0).buf2 ≠ memset0 ∧
    (print_diff chunkMixed memset0 0 0 0).buf1 ≠ chunkMixed ∧
    (print_diff chunkMixed memset0 0 0 0).buf2 ≠ memset0 := by
  decide

/-- C17, the code on `hexdiff -h`: the option loop ends in `show_help` with
    `verbose = 1`; the usage line goes to standard error, the help block is
    written with `printf` to standard output, which is therefore not empty,
    and the exit status is `EXIT_FAILURE`. -/
theorem C17_help_block_goes_to_stdout :
    parseOpts "hexdiff" [Opt.h] (0, 0) = .error (show_help "hexdiff" 1) ∧
    (show_help "hexdiff" 1).stderr =
      "Usage: hexdiff [-ah] [-n len] file1 file2 [skip1 [skip2]]\n" ∧
    (show_help "hexdiff" 1).stdout =
      " -a      print all lines\n -h      show help\n" ++
      " -n len  maximum number of bytes to compare\n" ++
      " skip1   starting offset for file1\n skip2   starting offset for file2\n" ∧
    (show_help "hexdiff" 1).stdout ≠ "" ∧
    (show_help "hexdiff" 1).status = ExitStatus.EXIT_FAILURE := by
  refine ⟨rfl, by decide, by decide, by decide, rfl⟩

/-- C18: started with run length 0 and fed fewer than `2^64` chunk pairs, for
    either setting of "show all", the driver ends with `eq_run` equal to the
    number of consecutive fully equal pairs at the end of the sequence: 0 for
    the empty sequence and after an unequal last pair, the length of the run
    that follows the last unequal pair otherwise; the same holds for the
    pairs the loop bodies read from two streams. -/
theorem C18_run_length_invariant (c : Config) (s : State)
    (ps : List (List Nat × List Nat)) (hs : s.eq_run = 0) (hlen : ps.length < U64) :
    (feedAll c s ps).eq_run = trailingEqual ps ∧
    (ps = [] → (feedAll c s ps).eq_run = 0) ∧
    (∀ pre q, ps = pre ++ [q] → Differs q → (feedAll c s ps).eq_run = 0) ∧
    (∀ pre q run, ps = pre ++ q :: run → Differs q → (∀ p ∈ run, FullyEqual p) →
      (feedAll c s ps).eq_run = run.length) ∧
    ((∀ p ∈ ps, FullyEqual p) → (feedAll c s ps).eq_run = ps.length) ∧
    (∀ (file1 file2 : List Nat) (n : Nat), n < U64 →
      (bodyN c n (initState file1 file2)).eq_run =
        trailingEqual (chunkPairs n file1 file2)) := by
  have h := feedAll_eq_run_trailing c s hs ps hlen
  refine ⟨h, ?_, ?_, ?_, ?_, ?_⟩
  · intro hnil
    rw [h, hnil]
    rfl
  · intro pre q hps hq
    rw [h, hps]
    exact trailingEqual_after_differs pre q hq [] (fun _ hp => absurd hp (List.not_mem_nil _))
  · intro pre q run hps hq hrun
    rw [h, hps]
    exact trailingEqual_after_differs pre q hq run hrun
  · intro hall
    rw [h]
    exact trailingEqual_all ps hall
  · intro file1 file2 n hn
    rw [bodyN_eq_run_chunkPairs]
    exact feedAll_eq_run_trailing c (initState file1 file2) rfl _
      (by rw [chunkPairs_length]; exact hn)

/-- Instance of C18: an unequal pair followed by two equal pairs. -/
theorem C18_run_length_invariant_witness :
    (feedAll cfgShowAll (initState [] [])
        [(chunkA, chunkB), (chunkA, chunkA), (chunkB, chunkB)]).eq_run =
      trailingEqual [(chunkA, chunkB), (chunkA, chunkA), (chunkB, chunkB)] :=
  (C18_run_length_invariant cfgShowAll (initState [] [])
    [(chunkA, chunkB), (chunkA, chunkA), (chunkB, chunkB)] rfl
    (by rw [U64_eq]; decide)).1

/-- C19: with `max_len = 0` and no interrupt, on streams of `n1` and `n2`
    bytes the loop terminates after exactly `min n1 n2 / 8 + 1` bodies; when
    `min n1 n2` is a multiple of 8 the last body reads no byte from the
    shorter stream, whose chunk is all zero, and for two streams of equal
    length it processes the all-zero pair, which is fully equal. -/
theorem C19_unlimited_iteration_count (c : Config) (sig : Nat → Nat)
    (file1 file2 : List Nat) (hmax : c.max_len = 0) (hsig : ∀ k, sig k = 0) :
    compareLoop c sig file1 file2 =
      some (bodyN c (min file1.length file2.length / 8 + 1) (initState file1 file2)) ∧
    (∀ fuel, min file1.length file2.length / 8 + 1 ≤ fuel →
      loop c sig fuel (initState file1 file2) =
        some (bodyN c (min file1.length file2.length / 8 + 1) (initState file1 file2))) ∧
    (bodyN c (min file1.length file2.length / 8 + 1) (initState file1 file2)).iters =
      min file1.length file2.length / 8 + 1 ∧
    bodyN c (min file1.length file2.length / 8 + 1) (initState file1 file2) =
      body c (bodyN c (min file1.length file2.length / 8) (initState file1 file2)) ∧
    (min file1.length file2.length % 8 = 0 → file1.length ≤ file2.length →
      (readChunks (bodyN c (min file1.length file2.length / 8)
        (initState file1 file2))).buf1 = memset0) ∧
    (min file1.length file2.length % 8 = 0 → file2.length ≤ file1.length →
      (readChunks (bodyN c (min file1.length file2.length / 8)
        (initState file1 file2))).buf2 = memset0) ∧
    (file1.length = file2.length → file1.length % 8 = 0 →
      (readChunks (bodyN c (min file1.length file2.length / 8)
        (initState file1 file2))).buf1 = memset0 ∧
      (readChunks (bodyN c (min file1.length file2.length / 8)
        (initState file1 file2))).buf2 = memset0 ∧
      FullyEqual (memset0, memset0)) := by
  have hloop := loop_unlimited c sig file1 file2 hmax hsig
  have hfull := bodyN_full c (min file1.length file2.length / 8) (initState file1 file2)
    (by show 8 * (min file1.length file2.length / 8) ≤ file1.length; omega)
    (by show 8 * (min file1.length file2.length / 8) ≤ file2.length; omega)
  have hb1 : min file1.length file2.length % 8 = 0 → file1.length ≤ file2.length →
      (readChunks (bodyN c (min file1.length file2.length / 8)
        (initState file1 file2))).buf1 = memset0 := by
    intro hm hle
    rw [readChunks_buf1, hfull.2.1]
    apply zeroFill_drop_all
    show file1.length ≤ 8 * (min file1.length file2.length / 8)
    omega
  have hb2 : min file1.length file2.length % 8 = 0 → file2.length ≤ file1.length →
      (readChunks (bodyN c (min file1.length file2.length / 8)
        (initState file1 file2))).buf2 = memset0 := by
    intro hm hle
    rw [readChunks_buf2, hfull.2.2]
    apply zeroFill_drop_all
    show file2.length ≤ 8 * (min file1.length file2.length / 8)
    omega
  refine ⟨?_, hloop, ?_, bodyN_succ_last c _ _, hb1, hb2, ?_⟩
  · unfold compareLoop
    apply hloop
    omega
  · rw [bodyN_iters]
    exact Nat.zero_add _
  · intro heq hm
    have hmin : min file1.length file2.length % 8 = 0 := by
      rw [← heq, Nat.min_self]
      exact hm
    exact ⟨hb1 hmin (by omega), hb2 hmin (by omega), fullyEqual_self memset0⟩

/-- Instance of C19: two 8-byte streams, two bodies. -/
theorem C19_unlimited_iteration_count_witness :
    compareLoop cfgDefault noSigint file8 file8 =
      some (bodyN cfgDefault (min file8.length file8.length / 8 + 1)
        (initState file8 file8)) :=
  (C19_unlimited_iteration_count cfgDefault noSigint file8 file8 rfl (fun _ => rfl)).1

/-- C20: in same-mode and in diff-mode alike the byte conversions of a line
    are, in this order, the eight `%02hhx` conversions of the original bytes
    of the left chunk, the eight `%c` conversions of their `printicize`
    forms, and the same for the right chunk; `%02hhx` of a byte writes its
    two lowercase hexadecimal digits, `%c` the byte itself. -/
theorem C20_bytes_printed (buf1 buf2 : List Nat) (skip1 skip2 cnt : Nat)
    (h1 : buf1.length = 8) (h2 : buf2.length = 8) :
    byteToks (print_same buf1 buf2 skip1 skip2 cnt).out =
      (List.range 8).map (fun i => Tok.hex (buf1.getD i 0)) ++
      (List.range 8).map (fun i => Tok.chr (printicizeByte (buf1.getD i 0))) ++
      (List.range 8).map (fun i => Tok.hex (buf2.getD i 0)) ++
      (List.range 8).map (fun i => Tok.chr (printicizeByte (buf2.getD i 0))) ∧
    byteToks (print_diff buf1 buf2 skip1 skip2 cnt).out =
      (List.range 8).map (fun i => Tok.hex (buf1.getD i 0)) ++
      (List.range 8).map (fun i => Tok.chr (printicizeByte (buf1.getD i 0))) ++
      (List.range 8).map (fun i => Tok.hex (buf2.getD i 0)) ++
      (List.range 8).map (fun i => Tok.chr (printicizeByte (buf2.getD i 0))) ∧
    (∀ b, b < 256 →
      Tok.render (Tok.hex b) = String.mk [hexDigit (b / 16), hexDigit (b % 16)]) ∧
    (∀ d, d < 16 → hexDigit d = "0123456789abcdef".toList.getD d '0') ∧
    (∀ b, b < 256 → Tok.render (Tok.chr b) = String.mk [Char.ofNat b]) := by
  refine ⟨?_, ?_, render_hex, hexDigit_table, render_chr⟩
  · rw [byteToks_print_same, chrToks_printicize buf1 h1, chrToks_printicize buf2 h2]
    rfl
  · rw [byteToks_print_diff, chrToks_printicize buf1 h1, chrToks_printicize buf2 h2]
    rfl

/-- Instance of C20 on `chunkMixed` and `chunkA`. -/
theorem C20_bytes_printed_witness :
    byteToks (print_same chunkMixed chunkA 0 0 0).out =
      (List.range 8).map (fun i => Tok.hex (chunkMixed.getD i 0)) ++
      (List.range 8).map (fun i => Tok.chr (printicizeByte (chunkMixed.getD i 0))) ++
      (List.range 8).map (fun i => Tok.hex (chunkA.getD i 0)) ++
      (List.range 8).map (fun i => Tok.chr (printicizeByte (chunkA.getD i 0))) :=
  (C20_bytes_printed chunkMixed chunkA 0 0 0 rfl rfl).1

end Hexdiff
